import Mathlib

/-!
Verification development for the apartment-cam telemetry relay
(`cam-proxy/server.js` and the viewer temperature route).

The JavaScript source is shallowly embedded: each parser and route helper
becomes a total Lean function over explicit inputs; the upstream HTTP layer
is embedded as a `FetchOutcome` value (either a thrown transport error or a
response with an `ok` flag, a status code and a body); code that can throw
is written in the `Except String` monad, and the source's `try`/`catch`
wrappers become an explicit `catching` combinator.  Timestamps are `Int`
milliseconds (JS `Date.now()`), and JS numbers are embedded as `JsNum`
(finite rational, `NaN`, or an infinity), so that the `Number.isFinite`
filtering done by the source is visible in the model.  String processing
is carried out on explicit character lists so that every definition
evaluates by kernel reduction.
-/

/-- Model of a JS number as produced by `Number(...)`: either a finite value
(embedded as a rational), `NaN`, or one of the two infinities.  Camera
payloads only ever produce decimal numerals, so finite values are exact. -/
inductive JsNum where
  | nan
  | inf
  | negInf
  | fin (q : ℚ)
  deriving DecidableEq, Repr

/-- Model of `Number.isFinite`. -/
def JsNum.isFinite : JsNum → Bool
  | .fin _ => true
  | _ => false

/-- Trim leading and trailing whitespace from a character list (model of the
trimming JS string handling performs via `trim()` / `Number` coercion). -/
def trimChars (cs : List Char) : List Char :=
  ((cs.dropWhile Char.isWhitespace).reverse.dropWhile Char.isWhitespace).reverse

/-- `trim()` on a string, via `trimChars`. -/
def jsTrim (s : String) : String :=
  String.mk (trimChars s.toList)

/-- Digits-to-value helper for the decimal numeral parser. -/
def digitsToNat (cs : List Char) : Nat :=
  cs.foldl (fun a c => a * 10 + (c.toNat - 48)) 0

/-- Parse the optional exponent part of a decimal numeral (`e`/`E`, optional
sign, at least one digit, nothing after).  `some e` is the exponent; `none`
means the remaining characters do not form a valid exponent (so the whole
numeral is `NaN`). -/
def parseExpPart (cs : List Char) : Option Int :=
  match cs with
  | [] => some 0
  | c :: rest =>
    if c = 'e' ∨ c = 'E' then
      match rest with
      | '+' :: ds =>
          if ds ≠ [] ∧ ds.all Char.isDigit then some (digitsToNat ds) else none
      | '-' :: ds =>
          if ds ≠ [] ∧ ds.all Char.isDigit then some (-(digitsToNat ds : Int)) else none
      | ds =>
          if ds ≠ [] ∧ ds.all Char.isDigit then some (digitsToNat ds) else none
    else none

/-- Parse an unsigned decimal numeral `digits [. digits] [exp]` or
`. digits [exp]`; `none` when the characters are not such a numeral. -/
def parseUnsignedDec (cs : List Char) : Option ℚ :=
  let sp := cs.span Char.isDigit
  match sp.2 with
  | '.' :: r2 =>
      let fsp := r2.span Char.isDigit
      if sp.1.isEmpty ∧ fsp.1.isEmpty then none
      else
        match parseExpPart fsp.2 with
        | some e =>
            some (((digitsToNat sp.1 : ℚ) + (digitsToNat fsp.1 : ℚ) / ((10 : ℚ) ^ fsp.1.length))
              * (10 : ℚ) ^ e)
        | none => none
  | _ =>
      if sp.1.isEmpty then none
      else
        match parseExpPart sp.2 with
        | some e => some ((digitsToNat sp.1 : ℚ) * (10 : ℚ) ^ e)
        | none => none

/-- Model of the JS `Number(string)` conversion for the string shapes the
camera payloads produce: the string is trimmed; the empty string converts
to `0`; `Infinity` forms convert to infinities; decimal numerals (optional
sign, optional fraction, optional exponent) convert to their exact value;
every other string converts to `NaN`.  (Hex/octal/binary numerals and
overflow to `Infinity` are outside the payload shapes and not modelled.) -/
def jsNumberOfString (s : String) : JsNum :=
  let t := trimChars s.toList
  if t = [] then .fin 0
  else if t = "Infinity".toList ∨ t = "+Infinity".toList then .inf
  else if t = "-Infinity".toList then .negInf
  else
    match t with
    | '+' :: rest =>
        match parseUnsignedDec rest with
        | some q => .fin q
        | none => .nan
    | '-' :: rest =>
        match parseUnsignedDec rest with
        | some q => .fin (-q)
        | none => .nan
    | cs =>
        match parseUnsignedDec cs with
        | some q => .fin q
        | none => .nan

/-- `Number(v)` for a possibly-`undefined` string argument
(`Number(undefined)` is `NaN`). -/
def jsNumberOpt : Option String → JsNum
  | none => .nan
  | some s => jsNumberOfString s

example : jsNumberOfString "" = .fin 0 := by decide
example : jsNumberOfString "abc" = .nan := by decide
example : jsNumberOfString "12." ≠ .nan := by decide
example : jsNumberOfString "." = .nan := by decide
example : jsNumberOfString "1e" = .nan := by decide
example : jsNumberOfString "Infinity" = .inf := by decide
example : (jsNumberOfString "-Infinity").isFinite = false := by decide

/-- Split a character list at every occurrence of a separator character
(model of JS `String.prototype.split` with a single-character separator). -/
def splitOnChar (sep : Char) : List Char → List (List Char)
  | [] => [[]]
  | c :: cs =>
    match splitOnChar sep cs with
    | [] => [[]]
    | g :: gs => if c = sep then [] :: g :: gs else (c :: g) :: gs

/-- Split a character list at every character satisfying the predicate. -/
def splitOnPred (p : Char → Bool) : List Char → List (List Char)
  | [] => [[]]
  | c :: cs =>
    match splitOnPred p cs with
    | [] => [[]]
    | g :: gs => if p c then [] :: g :: gs else (c :: g) :: gs

/-- The lines of a payload: split on newlines, trim each line, drop empty
lines (model of `text.split(/\r?\n/).map(l => l.trim()).filter(Boolean)`;
the trim also removes the `\r` left by splitting only on `\n`). -/
def payloadLines (s : String) : List (List Char) :=
  ((splitOnChar '\n' s.toList).map trimChars).filter (fun l => l ≠ [])

/-- Join character-list fragments with `=` (model of `rest.join("=")`). -/
def joinEq (parts : List (List Char)) : List Char :=
  (parts.intersperse ['=']).flatten

/-- Strip a leading `root.` from a key (model of
`key.replace(/^root\./, "")`). -/
def dropRootPrefix (k : List Char) : List Char :=
  if k.take 5 = "root.".toList then k.drop 5 else k

/-- Set a key in a JS-object-like association list: replace the value in
place when the key is present, append otherwise. -/
def kvSet (m : List (String × String)) (k v : String) : List (String × String) :=
  if m.any (fun e => e.1 == k) then
    m.map (fun e => if e.1 == k then (k, v) else e)
  else m ++ [(k, v)]

/-- Look a key up in an association list built by `kvSet`. -/
def kvLookup (m : List (String × String)) (k : String) : Option String :=
  (m.find? (fun e => e.1 == k)).map (fun e => e.2)

/-- Model of `parseKvBody` from `cam-proxy/server.js`: split the body into
trimmed nonempty lines; for each line split on `=`, skip the line when the
part before the first `=` is empty, strip a leading `root.` from the
trimmed key, and record the trimmed remainder (re-joined on `=`) as the
value, later lines overwriting earlier ones. -/
def parseKvBody (text : String) : List (String × String) :=
  (payloadLines text).foldl
    (fun out line =>
      match splitOnChar '=' line with
      | [] => out
      | rawKey :: rest =>
        if rawKey = [] then out
        else
          kvSet out (String.mk (dropRootPrefix (trimChars rawKey)))
            (String.mk (trimChars (joinEq rest))))
    []

/-- Set a key in an association list whose values are possibly-`undefined`
strings (the PTZ position key-value map). -/
def kvSetO (m : List (String × Option String)) (k : String) (v : Option String) :
    List (String × Option String) :=
  if m.any (fun e => e.1 == k) then
    m.map (fun e => if e.1 == k then (k, v) else e)
  else m ++ [(k, v)]

/-- Model of the PTZ position key-value parsing in `getPtzStatus`: the
trimmed response text is split on whitespace runs; each part is split on
`=`, keeping the first field as key (parts with an empty key are skipped)
and the second field, possibly absent, as value. -/
def parsePtzKv (text : String) : List (String × Option String) :=
  ((splitOnPred Char.isWhitespace (trimChars text.toList)).filter (fun p => p ≠ [])).foldl
    (fun kv part =>
      match splitOnChar '=' part with
      | [] => kv
      | k :: rest =>
        if k = [] then kv
        else kvSetO kv (String.mk k) ((rest.head?).map String.mk))
    []

/-- Property lookup on the PTZ key-value map: `undefined` both when the key
is absent and when the key was recorded without a value. -/
def ptzProp (m : List (String × Option String)) (k : String) : Option String :=
  match (m.find? (fun e => e.1 == k)).map (fun e => e.2) with
  | some (some s) => some s
  | _ => none

/-- Model of the `toNumber` helpers in `getPtzStatus` and `getPtzLimits`
success paths: `Number(v)` kept only when finite, otherwise `null`. -/
def finiteOrNull (v : Option String) : Option ℚ :=
  match jsNumberOpt v with
  | .fin q => some q
  | _ => none

/-- Model of `v || null` on a possibly-`undefined` string: `null` for
`undefined` and for the empty string. -/
def strOrNull (v : Option String) : Option String :=
  match v with
  | some s => if s = "" then none else some s
  | none => none

example : parseKvBody "root.A.B=1\n\nC=x=y\n=skip\nD=" =
    [("A.B", "1"), ("C", "x=y"), ("D", "")] := by decide
example : parsePtzKv "pan=12.5  tilt=-40\nzoom" =
    [("pan", some "12.5"), ("tilt", some "-40"), ("zoom", none)] := by decide
example : ptzProp (parsePtzKv "pan=1 zoom") "zoom" = none := by decide

/-- Case-insensitive character equality (the `i` regex flag). -/
def lowerEq (a b : Char) : Bool :=
  a.toLower == b.toLower

/-- Drop a case-insensitive occurrence of `needle` from the front of `hay`;
`none` when `hay` does not start with it. -/
def dropCi (needle hay : List Char) : Option (List Char) :=
  match needle, hay with
  | [], h => some h
  | _ :: _, [] => none
  | a :: as, b :: bs => if lowerEq a b then dropCi as bs else none

/-- Scan for the first position where `openT ([^<]*) closeT` matches
case-insensitively, returning the captured group (model of
`xml.match(new RegExp("<tag>([^<]*)</tag>", "i"))`). -/
def scanExtract (openT closeT : List Char) : List Char → Option (List Char)
  | [] => none
  | c :: rest =>
    match dropCi openT (c :: rest) with
    | some after =>
      let cap := after.takeWhile (fun ch => ch != '<')
      if (dropCi closeT (after.drop cap.length)).isSome then some cap
      else scanExtract openT closeT rest
    | none => scanExtract openT closeT rest

/-- Model of the `extract`/`tag` XML helpers in `getGeolocation` and
`getDeviceInfo`: the first case-insensitive `<tag>…</tag>` match, with the
captured text trimmed; `null` when there is no match. -/
def extractTag (xml : String) (tag : String) : Option String :=
  (scanExtract ('<' :: (tag.toList ++ ['>'])) ('<' :: '/' :: (tag.toList ++ ['>']))
      xml.toList).map (fun cs => String.mk (trimChars cs))

/-- Model of `toNumber` in `getGeolocation`: `null` input stays `null`, and
a string is kept only when `Number` of it is finite. -/
def geoToNumber (v : Option String) : Option ℚ :=
  match v with
  | none => none
  | some s =>
    match jsNumberOfString s with
    | .fin q => some q
    | _ => none

/-- Model of `toBoolean` in `getGeolocation` (`/^(true|1)$/i` and
`/^(false|0)$/i`). -/
def geoToBoolean (v : Option String) : Option Bool :=
  match v with
  | none => none
  | some s =>
    let l := s.toList.map Char.toLower
    if l = "true".toList ∨ l = "1".toList then some true
    else if l = "false".toList ∨ l = "0".toList then some false
    else none

example : extractTag "<GeoLocation><Lat>47.61</Lat><Lng></Lng></GeoLocation>" "Lat" =
    some "47.61" := by decide
example : extractTag "<lat>5</lat>" "Lat" = some "5" := by decide
example : extractTag "<Lat>bad<</Lat>" "Lat" = none := by decide
example : geoToBoolean (some "TRUE") = some true := by decide
example : geoToBoolean (some "2") = none := by decide

/-- Outcome of one upstream HTTP call as seen by a caller of
`fetchWithTimeout`: either the awaited promise rejected (transport error or
timeout, carrying the error message), or a response arrived with its `ok`
flag, status code, and body text. -/
inductive FetchOutcome where
  | exn (msg : String)
  | resp (ok : Bool) (status : Nat) (body : String)
  deriving DecidableEq, Repr

/-- A received HTTP response. -/
structure HttpResp where
  ok : Bool
  status : Nat
  body : String
  deriving DecidableEq, Repr

/-- Model of awaiting `fetchWithTimeout`: a rejected promise becomes a
thrown error in the `Except` monad. -/
def fetchWithTimeout : FetchOutcome → Except String HttpResp
  | .exn m => .error m
  | .resp ok st body => .ok ⟨ok, st, body⟩

/-- Model of a JS `try { body } catch (err) { return onErr(err.message) }`
wrapper around an async function body. -/
def catching {α : Type} (body : Except String α) (onErr : String → α) : α :=
  match body with
  | .ok a => a
  | .error e => onErr e

/-- Model of `a || b` on possibly-`undefined` strings: the left value when
it is defined and nonempty, otherwise the right value. -/
def jsOrStr (a b : Option String) : Option String :=
  match a with
  | some s => if s = "" then b else some s
  | none => b

/-- The `optics` field of the status snapshot: the object `getPtzStatus`
resolves to.  JS objects with different shapes per branch are embedded as
one structure of optional fields, absent fields being `none`. -/
structure OpticsResult where
  raw : Option String := none
  magnification : Option ℚ := none
  pan : Option ℚ := none
  tilt : Option ℚ := none
  zoomMoving : Option String := none
  focusPosition : Option ℚ := none
  autofocus : Option String := none
  autoiris : Option String := none
  error : Option String := none
  detail : Option String := none
  deriving DecidableEq, Repr

/-- The position-payload parsing `getPtzStatus` performs identically in its
primary and fallback branches: trim the text, split it into whitespace-run
separated `key=value` parts, and read zoom/pan/tilt as finite-or-null
numbers and autofocus/autoiris as truthy-or-null strings. -/
def ptzPositionResult (body : String) : OpticsResult :=
  let kv := parsePtzKv body
  { raw := some (jsTrim body)
    magnification := finiteOrNull (ptzProp kv "zoom")
    pan := finiteOrNull (ptzProp kv "pan")
    tilt := finiteOrNull (ptzProp kv "tilt")
    zoomMoving := none
    focusPosition := none
    autofocus := strOrNull (ptzProp kv "autofocus")
    autoiris := strOrNull (ptzProp kv "autoiris") }

/-- The `try` body of `getPtzStatus`: query the primary PTZ path; on a
non-success status retry the legacy alternate path; if that also fails,
resolve to an error object carrying the primary status. -/
def getPtzStatusBody (primary alt : FetchOutcome) : Except String OpticsResult := do
  let res ← fetchWithTimeout primary
  if !res.ok then do
    let ptzAltRes ← fetchWithTimeout alt
    if !ptzAltRes.ok then
      pure { error := some ("HTTP " ++ toString res.status), detail := some res.body }
    else
      pure (ptzPositionResult ptzAltRes.body)
  else
    pure (ptzPositionResult res.body)

/-- Model of `getPtzStatus` in `cam-proxy/server.js`: its body with the
surrounding `try`/`catch` that converts any thrown error into an
error-field object. -/
def getPtzStatus (primary alt : FetchOutcome) : OpticsResult :=
  catching (getPtzStatusBody primary alt) (fun e => { error := some e })

/-- The `geolocation` field of the status snapshot. -/
structure GeoResult where
  lat : Option ℚ := none
  lng : Option ℚ := none
  heading : Option ℚ := none
  text : Option String := none
  valid : Option Bool := none
  validHeading : Option Bool := none
  error : Option String := none
  detail : Option String := none
  deriving DecidableEq, Repr

/-- The `try` body of `getGeolocation`: fetch the geolocation XML and
extract its tagged fields, numbers kept only when finite. -/
def getGeolocationBody (f : FetchOutcome) : Except String GeoResult := do
  let res ← fetchWithTimeout f
  if !res.ok then
    pure { error := some ("HTTP " ++ toString res.status), detail := some res.body }
  else
    let xml := res.body
    pure
      { lat := geoToNumber (extractTag xml "Lat")
        lng := geoToNumber (extractTag xml "Lng")
        heading := geoToNumber (extractTag xml "Heading")
        text := extractTag xml "Text"
        valid := geoToBoolean (extractTag xml "ValidPosition")
        validHeading := geoToBoolean (extractTag xml "ValidHeading") }

/-- Model of `getGeolocation` in `cam-proxy/server.js`. -/
def getGeolocation (f : FetchOutcome) : GeoResult :=
  catching (getGeolocationBody f) (fun e => { error := some e })

/-- Hard-coded zoom fallback bounds from `cam-proxy/server.js`. -/
def PTZ_MIN_ZOOM_DEFAULT : ℚ := 1

/-- Hard-coded zoom fallback bounds from `cam-proxy/server.js`. -/
def PTZ_MAX_ZOOM_DEFAULT : ℚ := 9999

/-- The PTZ capabilities object.  `none` encodes a field that is absent
from the JS object (the failure branches of `getPtzLimits` only carry the
zoom bounds and an error). -/
structure PtzCapabilities where
  minZoom : Option ℚ := none
  maxZoom : Option ℚ := none
  minPan : Option ℚ := none
  maxPan : Option ℚ := none
  minTilt : Option ℚ := none
  maxTilt : Option ℚ := none
  error : Option String := none
  deriving DecidableEq, Repr

/-- Model of `toNumber` in `getPtzLimits`: `Number(v)` kept when finite,
the per-field fallback otherwise. -/
def limitsToNumber (v : Option String) (fallback : ℚ) : ℚ :=
  match jsNumberOpt v with
  | .fin q => q
  | _ => fallback

/-- The `try` body of `getPtzLimits`: on a non-success status resolve to an
object carrying only the zoom fallbacks and the error; on success read the
six bounds, each defaulting per-field. -/
def getPtzLimitsBody (f : FetchOutcome) : Except String PtzCapabilities := do
  let res ← fetchWithTimeout f
  if !res.ok then
    pure { minZoom := some PTZ_MIN_ZOOM_DEFAULT, maxZoom := some PTZ_MAX_ZOOM_DEFAULT,
           error := some ("HTTP " ++ toString res.status) }
  else
    let kv := parseKvBody res.body
    pure
      { minZoom := some (limitsToNumber (kvLookup kv "PTZ.Limit.L1.MinZoom") PTZ_MIN_ZOOM_DEFAULT)
        maxZoom := some (limitsToNumber (kvLookup kv "PTZ.Limit.L1.MaxZoom") PTZ_MAX_ZOOM_DEFAULT)
        minPan := some (limitsToNumber (kvLookup kv "PTZ.Limit.L1.MinPan") (-172))
        maxPan := some (limitsToNumber (kvLookup kv "PTZ.Limit.L1.MaxPan") 172)
        minTilt := some (limitsToNumber (kvLookup kv "PTZ.Limit.L1.MinTilt") (-172))
        maxTilt := some (limitsToNumber (kvLookup kv "PTZ.Limit.L1.MaxTilt") 172) }

/-- Model of `getPtzLimits` in `cam-proxy/server.js`: its body with the
`catch` that resolves to the zoom fallbacks plus the error message. -/
def getPtzLimits (f : FetchOutcome) : PtzCapabilities :=
  catching (getPtzLimitsBody f)
    (fun e => { minZoom := some PTZ_MIN_ZOOM_DEFAULT, maxZoom := some PTZ_MAX_ZOOM_DEFAULT,
                error := some e })

/-- One temperature sensor reading. -/
structure SensorReading where
  id : String
  name : Option String := none
  celsius : Option ℚ := none
  fahrenheit : Option ℚ := none
  deriving DecidableEq, Repr

/-- The heater sub-object of the temperature payload. -/
structure HeaterStatus where
  status : Option String := none
  timeUntilStop : Option ℚ := none
  deriving DecidableEq, Repr

/-- Result of `parseTemperaturePayload`. -/
structure TemperatureParse where
  sensors : List SensorReading
  heater : HeaterStatus
  deriving DecidableEq, Repr

/-- The three sensor fields matched by
`/^Sensor\.S(\d+)\.(Name|Celsius|Fahrenheit)$/`. -/
inductive SensorField where
  | name
  | celsius
  | fahrenheit
  deriving DecidableEq, Repr

/-- Drop an exact occurrence of `needle` from the front of `hay`. -/
def dropExact (needle hay : List Char) : Option (List Char) :=
  match needle, hay with
  | [], h => some h
  | _ :: _, [] => none
  | a :: as, b :: bs => if a = b then dropExact as bs else none

/-- Match a key against `/^Sensor\.S(\d+)\.(Name|Celsius|Fahrenheit)$/`,
returning the sensor id `S<digits>` and the matched field. -/
def matchSensorKey (k : List Char) : Option (String × SensorField) :=
  match dropExact "Sensor.S".toList k with
  | none => none
  | some rest =>
    let ds := rest.takeWhile Char.isDigit
    if ds = [] then none
    else
      match rest.drop ds.length with
      | '.' :: fld =>
        if fld = "Name".toList then some (String.mk ('S' :: ds), .name)
        else if fld = "Celsius".toList then some (String.mk ('S' :: ds), .celsius)
        else if fld = "Fahrenheit".toList then some (String.mk ('S' :: ds), .fahrenheit)
        else none
      | _ => none

/-- `Number.isFinite(Number(value)) ? Number(value) : null` for a defined
string value. -/
def finiteOrNullStr (value : String) : Option ℚ :=
  match jsNumberOfString value with
  | .fin q => some q
  | _ => none

/-- `value || null` for a defined string value. -/
def strOrNullStr (value : String) : Option String :=
  if value = "" then none else some value

/-- `sensors[id] ||= {id, name: null, celsius: null, fahrenheit: null}`:
ensure the keyed record exists (JS object keys of the form `S<n>` keep
insertion order). -/
def sensorsEnsure (m : List (String × SensorReading)) (id : String) :
    List (String × SensorReading) :=
  if m.any (fun e => e.1 == id) then m else m ++ [(id, { id := id })]

/-- Update the record stored under `id`, creating it first if needed. -/
def sensorsModify (m : List (String × SensorReading)) (id : String)
    (f : SensorReading → SensorReading) : List (String × SensorReading) :=
  (sensorsEnsure m id).map (fun e => if e.1 == id then (e.1, f e.2) else e)

/-- One line of the temperature payload: split on `=` (second fragment
defaulting to empty), trim key and value, and either update the matched
sensor field or the heater fields. -/
def tempLineStep (st : List (String × SensorReading) × HeaterStatus) (line : List Char) :
    List (String × SensorReading) × HeaterStatus :=
  let parts := splitOnChar '=' line
  let rawKey := parts.headD []
  let rawValue := (parts.drop 1).headD []
  let key := trimChars rawKey
  let value := String.mk (trimChars rawValue)
  match matchSensorKey key with
  | some (id, .name) => (sensorsModify st.1 id (fun s => { s with name := strOrNullStr value }), st.2)
  | some (id, .celsius) =>
      (sensorsModify st.1 id (fun s => { s with celsius := finiteOrNullStr value }), st.2)
  | some (id, .fahrenheit) =>
      (sensorsModify st.1 id (fun s => { s with fahrenheit := finiteOrNullStr value }), st.2)
  | none =>
    let h1 := if key = "Heater.H0.Status".toList then { st.2 with status := strOrNullStr value } else st.2
    let h2 :=
      if key = "Heater.H0.TimeUntilStop".toList then { h1 with timeUntilStop := finiteOrNullStr value }
      else h1
    (st.1, h2)

/-- Lexicographic (code-unit) order on character lists. -/
def lexLeChars : List Char → List Char → Bool
  | [], _ => true
  | _ :: _, [] => false
  | a :: as, b :: bs => if a = b then lexLeChars as bs else decide (a < b)

theorem lexLeChars_total (a b : List Char) :
    lexLeChars a b = true ∨ lexLeChars b a = true := by
  induction a generalizing b with
  | nil => left; rfl
  | cons x xs ih =>
    cases b with
    | nil => right; rfl
    | cons y ys =>
      by_cases hxy : x = y
      · subst hxy
        rcases ih ys with h | h
        · left; simpa [lexLeChars] using h
        · right; simpa [lexLeChars] using h
      · rcases lt_or_gt_of_ne hxy with h | h
        · left; simp [lexLeChars, hxy, h]
        · right; simp [lexLeChars, Ne.symm hxy, h]

theorem lexLeChars_trans (a b c : List Char) (hab : lexLeChars a b = true)
    (hbc : lexLeChars b c = true) : lexLeChars a c = true := by
  induction a generalizing b c with
  | nil => rfl
  | cons x xs ih =>
    cases b with
    | nil => simp [lexLeChars] at hab
    | cons y ys =>
      cases c with
      | nil => simp [lexLeChars] at hbc
      | cons z zs =>
        by_cases hxy : x = y
        · subst hxy
          by_cases hyz : x = z
          · subst hyz
            simp only [lexLeChars, if_pos rfl] at hab hbc ⊢
            exact ih ys zs hab hbc
          · simp only [lexLeChars, if_pos rfl] at hab
            simp only [lexLeChars, if_neg hyz] at hbc ⊢
            exact hbc
        · by_cases hyz : y = z
          · subst hyz
            simp only [lexLeChars, if_neg hxy] at hab ⊢
            exact hab
          · simp only [lexLeChars, if_neg hxy] at hab
            simp only [lexLeChars, if_neg hyz] at hbc
            have hxz : x < z := lt_trans (of_decide_eq_true hab) (of_decide_eq_true hbc)
            simp [lexLeChars, ne_of_lt hxz, hxz]

/-- The comparator `(a, b) => a.id.localeCompare(b.id)`: on ids of the
shape `S<digits>` the default locale comparison coincides with code-unit
(lexicographic) string order. -/
def sensorIdLe (a b : SensorReading) : Prop :=
  lexLeChars a.id.toList b.id.toList = true

instance : DecidableRel sensorIdLe := fun a b =>
  inferInstanceAs (Decidable (lexLeChars a.id.toList b.id.toList = true))

instance : IsTotal SensorReading sensorIdLe :=
  ⟨fun a b => lexLeChars_total a.id.toList b.id.toList⟩

instance : IsTrans SensorReading sensorIdLe :=
  ⟨fun a b c hab hbc => lexLeChars_trans a.id.toList b.id.toList c.id.toList hab hbc⟩

/-- Model of `parseTemperaturePayload` (identical in `cam-proxy/server.js`
and `viewer/app/api/camera/temperature/route.ts` up to the `raw` and
`fetchedAt` fields the route adds): fold the trimmed nonempty lines through
`tempLineStep`, then return the keyed sensor records sorted by id. -/
def parseTemperaturePayload (payload : String) : TemperatureParse :=
  let st := (payloadLines payload).foldl tempLineStep ([], {})
  { sensors := List.insertionSort sensorIdLe (st.1.map (fun e => e.2))
    heater := st.2 }

example :
    (parseTemperaturePayload
      "Sensor.S1.Name=Main\nSensor.S0.Celsius=21\nSensor.S1.Celsius=x\nHeater.H0.Status=off").sensors.map
        (fun s => s.id) = ["S0", "S1"] := by decide
example :
    (parseTemperaturePayload "Sensor.S0.Celsius=x").sensors =
      [{ id := "S0", name := none, celsius := none, fahrenheit := none }] := by decide
example :
    (parseTemperaturePayload "Heater.H0.Status=on\nHeater.H0.TimeUntilStop=bad").heater =
      { status := some "on", timeUntilStop := none } := by decide

/-- The result of `getTemperatureAndIr`: the parsed temperature payload
plus the best-effort IR-cut-filter state (its `heater` field is only
present on the success branch). -/
structure TempResult where
  sensor : Option ℚ := none
  sensors : List SensorReading := []
  heater : Option HeaterStatus := none
  irState : Option String := none
  error : Option String := none
  detail : Option String := none
  deriving DecidableEq, Repr

/-- The best-effort IR state lookup inside `getTemperatureAndIr`: its own
`try`/`catch` swallows every error, and a non-success response leaves the
state `null`; on success the state is the first truthy of three key-value
lookups, the trimmed body, or `null`. -/
def irStateLookup (irF : FetchOutcome) : Option String :=
  match irF with
  | .exn _ => none
  | .resp ok _ body =>
    if ok then
      let kv := parseKvBody body
      jsOrStr (kvLookup kv "ircutfilter")
        (jsOrStr (kvLookup kv "ir_cut_filter")
          (jsOrStr (kvLookup kv "IrcutFilter") (strOrNullStr (jsTrim body))))
    else none

/-- The `try` body of `getTemperatureAndIr`. -/
def getTemperatureAndIrBody (mainF irF : FetchOutcome) : Except String TempResult := do
  let res ← fetchWithTimeout mainF
  if !res.ok then
    pure { error := some ("HTTP " ++ toString res.status), detail := some res.body }
  else
    let parsed := parseTemperaturePayload res.body
    pure
      { sensor := (parsed.sensors.head?).bind (fun s => s.celsius)
        sensors := parsed.sensors
        heater := some parsed.heater
        irState := irStateLookup irF }

/-- Model of `getTemperatureAndIr` in `cam-proxy/server.js`. -/
def getTemperatureAndIr (mainF irF : FetchOutcome) : TempResult :=
  catching (getTemperatureAndIrBody mainF irF) (fun e => { error := some e })

/-- The `device` field of the status snapshot. -/
structure DeviceResult where
  model : Option String := none
  firmware : Option String := none
  serial : Option String := none
  error : Option String := none
  detail : Option String := none
  deriving DecidableEq, Repr

/-- The `try` body of `getDeviceInfo`: key-value identity parameters, with
an XML `systeminfo.cgi` fallback on a non-success primary status. -/
def getDeviceInfoBody (primary sys : FetchOutcome) : Except String DeviceResult := do
  let res ← fetchWithTimeout primary
  if !res.ok then do
    let sysRes ← fetchWithTimeout sys
    if sysRes.ok then
      pure { model := jsOrStr (extractTag sysRes.body "prodname")
                        (jsOrStr (extractTag sysRes.body "model") none) }
    else
      pure { error := some ("HTTP " ++ toString res.status), detail := some res.body }
  else
    let kv := parseKvBody res.body
    pure
      { model := jsOrStr (kvLookup kv "Brand.ProdFullName")
                   (jsOrStr (kvLookup kv "Brand.ProdShortName") none)
        firmware := jsOrStr (kvLookup kv "Properties.Firmware.Version") none
        serial := jsOrStr (kvLookup kv "Properties.System.SerialNumber") none }

/-- Model of `getDeviceInfo` in `cam-proxy/server.js`. -/
def getDeviceInfo (primary sys : FetchOutcome) : DeviceResult :=
  catching (getDeviceInfoBody primary sys) (fun e => { error := some e })

/-- A JSON value, for the time endpoint whose body the source parses with
`JSON.parse`. -/
inductive Json where
  | null
  | bool (b : Bool)
  | num (q : ℚ)
  | str (s : String)
  | arr (elems : List Json)
  | obj (fields : List (String × Json))

/-- JS truthiness of a JSON value. -/
def jsTruthy : Json → Bool
  | .null => false
  | .bool b => b
  | .num q => decide (q ≠ 0)
  | .str s => s ≠ ""
  | .arr _ => true
  | .obj _ => true

/-- Property access `j?.k`: `undefined` (`none`) unless `j` is an object
with the field. -/
def jsonGet : Json → String → Option Json
  | .obj fields, k => (fields.find? (fun e => e.1 == k)).map (fun e => e.2)
  | _, _ => none

/-- Truthiness of a possibly-`undefined` JSON value. -/
def jsTruthyOpt : Option Json → Bool
  | none => false
  | some j => jsTruthy j

/-- `a || b` on possibly-`undefined` JSON values. -/
def jsOrJ (a b : Option Json) : Option Json :=
  if jsTruthyOpt a then a else b

/-- Outcome of the time endpoint call, with the response body already taken
through `JSON.parse`: `json = none` models a body that failed to parse
(the source catches the parse error and continues with `json = null`). -/
inductive TimeOutcome where
  | exn (msg : String)
  | resp (ok : Bool) (status : Nat) (json : Option Json)

/-- The `time` field of the status snapshot.  The error carries the
`json.error.message` JSON value when it is truthy, else an `HTTP`-string. -/
structure TimeResult where
  cameraTime : Option Json := none
  timezone : Option Json := none
  error : Option Json := none

/-- The `try` body of `getTime`. -/
def getTimeBody (o : TimeOutcome) : Except String TimeResult :=
  match o with
  | .exn m => .error m
  | .resp ok st json =>
    let jerr := json.bind (fun j => jsonGet j "error")
    if !ok || jsTruthyOpt jerr then
      .ok { error := some ((jsOrJ (jerr.bind (fun j => jsonGet j "message"))
              (some (.str ("HTTP " ++ toString st ++ " from time.cgi")))).getD .null) }
    else
      let dataJ := (jsOrJ (json.bind (fun j => jsonGet j "data"))
        (jsOrJ json (some (.obj [])))).getD (.obj [])
      .ok
        { cameraTime := jsOrJ (jsonGet dataJ "localDateTime") (jsOrJ (jsonGet dataJ "dateTime") none)
          timezone := jsOrJ (jsonGet dataJ "timeZone")
            (jsOrJ (jsonGet dataJ "posixTimeZone") (jsOrJ (jsonGet dataJ "dhcpTimeZone") none)) }

/-- Model of `getTime` in `cam-proxy/server.js`. -/
def getTime (o : TimeOutcome) : TimeResult :=
  catching (getTimeBody o) (fun m => { cameraTime := none, timezone := none, error := some (.str m) })

/-- The upstream outcomes feeding one run of `buildStatusPayload`: one
entry per HTTP call the five sub-calls can make. -/
structure StatusEnv where
  ptzPrimary : FetchOutcome
  ptzAlt : FetchOutcome
  geo : FetchOutcome
  time : TimeOutcome
  devPrimary : FetchOutcome
  devSys : FetchOutcome
  tempMain : FetchOutcome
  tempIr : FetchOutcome

/-- The aggregated status snapshot. -/
structure StatusSnapshot where
  optics : OpticsResult
  geolocation : GeoResult
  time : TimeResult
  device : DeviceResult
  temperature : TempResult
  fetchedAt : Int

/-- Model of `buildStatusPayload`: `Promise.all` over the five sub-calls.
Each sub-call carries its own `try`/`catch` and so resolves rather than
rejects; the aggregate therefore also resolves, with `fetchedAt` stamped
at completion time. -/
def buildStatusPayload (env : StatusEnv) (now : Int) : Except String StatusSnapshot := do
  pure
    { optics := getPtzStatus env.ptzPrimary env.ptzAlt
      geolocation := getGeolocation env.geo
      time := getTime env.time
      device := getDeviceInfo env.devPrimary env.devSys
      temperature := getTemperatureAndIr env.tempMain env.tempIr
      fetchedAt := now }

/-!
The single-flight caches.  `statusCache` and `capsCache` are the same
shape: `{ data, expiresAt, promise }`, operated on by
`getCachedStatusPayload` and `getCachedCapabilities`, which are the same
code up to the build function and the TTL constant (`STATUS_CACHE_MS`
resp. `CAPS_CACHE_MS`).  The cache is embedded as a state machine: a
`get` step models one synchronous run of the cache function body (the
check-and-set runs without any `await` between the promise check and the
promise assignment), and a `complete` step models the in-flight build
promise settling (the `try`/`finally` of the wrapper: on success store
the payload and the new expiry, on failure store nothing; either way the
in-flight marker is cleared).  Builds are numbered so that which build a
caller awaits is observable. -/

/-- Default TTL of the status cache (`STATUS_CACHE_MS`). -/
def STATUS_CACHE_MS : Int := 7000

/-- Default TTL of the capabilities cache (`CAPS_CACHE_MS`). -/
def CAPS_CACHE_MS : Int := 60000

/-- The mutable cache record `{ data, expiresAt, promise }`.  The promise
field holds the id of the in-flight build, if any. -/
structure CacheState (T : Type) where
  data : Option T
  expiresAt : Int
  promise : Option Nat
  deriving DecidableEq, Repr

/-- The cache record at process start. -/
def cacheInit {T : Type} : CacheState T :=
  { data := none, expiresAt := 0, promise := none }

/-- A cache plus bookkeeping: the id the next build will get and the list
of builds started so far (each entry is one invocation of the build
function). -/
structure CacheWorld (T : Type) where
  st : CacheState T
  nextId : Nat
  started : List Nat
  deriving DecidableEq, Repr

/-- The world at process start: empty cache, no build started. -/
def cacheWorldInit {T : Type} : CacheWorld T :=
  { st := cacheInit, nextId := 0, started := [] }

/-- What one call to the cache function returns: the cached data
immediately, or the promise of build `pid` (for the caller that started
the build as well as for callers that joined it). -/
inductive GetRes (T : Type) where
  | cached (v : T)
  | awaits (pid : Nat)
  deriving DecidableEq, Repr

/-- The cache-miss tail of the cache function: return the in-flight
promise if one exists, otherwise start a build and return its promise. -/
def cacheGetMiss {T : Type} (w : CacheWorld T) : GetRes T × CacheWorld T :=
  match w.st.promise with
  | some pid => (.awaits pid, w)
  | none =>
    (.awaits w.nextId,
      { st := { w.st with promise := some w.nextId },
        nextId := w.nextId + 1,
        started := w.started ++ [w.nextId] })

/-- One synchronous run of `getCachedStatusPayload` / `getCachedCapabilities`
at time `now`: non-expired data is returned immediately; otherwise the
in-flight promise is returned, a build being started first if none is in
flight. -/
def cacheGet {T : Type} (w : CacheWorld T) (now : Int) : GetRes T × CacheWorld T :=
  match w.st.data with
  | some v => if now < w.st.expiresAt then (.cached v, w) else cacheGetMiss w
  | none => cacheGetMiss w

/-- The in-flight build settling at time `now` (the `try`/`finally` around
the build): on success store the payload and `expiresAt = now + ttl`; on
failure store nothing; in both cases clear the in-flight marker. -/
def cacheComplete {T E : Type} (w : CacheWorld T) (r : Except E T) (now ttl : Int) :
    CacheWorld T :=
  match w.st.promise with
  | none => w
  | some _ =>
    match r with
    | .ok v => { w with st := { data := some v, expiresAt := now + ttl, promise := none } }
    | .error _ => { w with st := { w.st with promise := none } }

/-- An event-loop event touching the cache: a caller invoking the cache
function, or the in-flight build settling. -/
inductive CacheEv (T E : Type) where
  | get (now : Int)
  | complete (r : Except E T) (now : Int)

/-- A cache history: the world, each get-call's returned result in call
order, and the settlement log (build id, build result). -/
structure CacheTrace (T E : Type) where
  world : CacheWorld T
  outcomes : List (GetRes T)
  log : List (Nat × Except E T)

/-- The empty history. -/
def cacheTraceInit {T E : Type} : CacheTrace T E :=
  { world := cacheWorldInit, outcomes := [], log := [] }

/-- Process one event. -/
def cacheStep {T E : Type} (ttl : Int) (s : CacheTrace T E) : CacheEv T E → CacheTrace T E
  | .get now =>
    let r := cacheGet s.world now
    { world := r.2, outcomes := s.outcomes ++ [r.1], log := s.log }
  | .complete r now =>
    match s.world.st.promise with
    | some pid =>
      { world := cacheComplete s.world r now ttl, outcomes := s.outcomes,
        log := s.log ++ [(pid, r)] }
    | none => s

/-- Run a list of events from process start. -/
def runCache {T E : Type} (ttl : Int) (evs : List (CacheEv T E)) : CacheTrace T E :=
  evs.foldl (cacheStep ttl) cacheTraceInit

/-- What a caller eventually receives: cached data directly, or the settled
result of the build it awaited. -/
def resolveOutcome {T E : Type} (log : List (Nat × Except E T)) : GetRes T → Option (Except E T)
  | .cached v => some (.ok v)
  | .awaits p => (log.find? (fun e => e.1 == p)).map (fun e => e.2)

/-- The builds that have started but not settled. -/
def inFlightIds {T E : Type} (s : CacheTrace T E) : List Nat :=
  s.world.started.filter (fun i => !(s.log.any (fun e => e.1 == i)))

/-- A cache world whose data would miss at time `t` (no data, or data
already expired). -/
def cacheStale {T : Type} (w : CacheWorld T) (t : Int) : Prop :=
  w.st.data = none ∨ w.st.expiresAt ≤ t

theorem cacheGet_hit {T : Type} (w : CacheWorld T) (v : T) (now : Int)
    (hd : w.st.data = some v) (hf : now < w.st.expiresAt) :
    cacheGet w now = (.cached v, w) := by
  simp [cacheGet, hd, hf]

theorem cacheGet_join {T : Type} (w : CacheWorld T) (p : Nat) (t : Int)
    (hp : w.st.promise = some p) (hs : cacheStale w t) :
    cacheGet w t = (.awaits p, w) := by
  cases hd : w.st.data with
  | none => simp [cacheGet, hd, cacheGetMiss, hp]
  | some v =>
    rcases hs with h | h
    · rw [hd] at h; cases h
    · have hnf : ¬ t < w.st.expiresAt := not_lt.mpr h
      simp [cacheGet, hd, hnf, cacheGetMiss, hp]

theorem cacheGet_start {T : Type} (w : CacheWorld T) (t : Int)
    (hp : w.st.promise = none) (hs : cacheStale w t) :
    cacheGet w t =
      (.awaits w.nextId,
        { st := { w.st with promise := some w.nextId },
          nextId := w.nextId + 1,
          started := w.started ++ [w.nextId] }) := by
  cases hd : w.st.data with
  | none => simp [cacheGet, hd, cacheGetMiss, hp]
  | some v =>
    rcases hs with h | h
    · rw [hd] at h; cases h
    · have hnf : ¬ t < w.st.expiresAt := not_lt.mpr h
      simp [cacheGet, hd, hnf, cacheGetMiss, hp]

theorem runGets_join {T E : Type} (ttl : Int) (ts : List Int) (p : Nat) :
    ∀ s : CacheTrace T E, s.world.st.promise = some p → (∀ t ∈ ts, cacheStale s.world t) →
    (ts.map (CacheEv.get (T := T) (E := E))).foldl (cacheStep ttl) s =
      { world := s.world, outcomes := s.outcomes ++ ts.map (fun _ => GetRes.awaits p),
        log := s.log } := by
  induction ts with
  | nil => intro s _ _; simp
  | cons t rest ih =>
    intro s hp hst
    have hj := cacheGet_join s.world p t hp (hst t (by simp))
    have hstep : cacheStep ttl s (CacheEv.get t) =
        { world := s.world, outcomes := s.outcomes ++ [GetRes.awaits p], log := s.log } := by
      simp [cacheStep, hj]
    simp only [List.map_cons, List.foldl_cons, hstep]
    rw [ih { world := s.world, outcomes := s.outcomes ++ [GetRes.awaits p], log := s.log }
      hp (fun u hu => hst u (by simp [hu]))]
    simp

/-- The single-flight invariant: build ids are handed out consecutively,
every settled build was started, the in-flight build (if any) is the
latest started and not yet settled, and every other started build has
settled. -/
def CacheInv {T E : Type} (s : CacheTrace T E) : Prop :=
  s.world.started = List.range s.world.nextId ∧
  (∀ k ∈ s.log.map Prod.fst, k < s.world.nextId) ∧
  (∀ p, s.world.st.promise = some p → p + 1 = s.world.nextId ∧ p ∉ s.log.map Prod.fst) ∧
  (∀ i, i < s.world.nextId → i ∈ s.log.map Prod.fst ∨ s.world.st.promise = some i)

theorem cacheInv_init {T E : Type} : CacheInv (cacheTraceInit (T := T) (E := E)) := by
  refine ⟨by simp [cacheTraceInit, cacheWorldInit], ?_, ?_, ?_⟩ <;>
    simp [cacheTraceInit, cacheWorldInit, cacheInit]

theorem cacheGet_world {T : Type} (w : CacheWorld T) (now : Int) :
    (cacheGet w now).2 = w ∨
      (w.st.promise = none ∧
        (cacheGet w now).2 =
          { st := { w.st with promise := some w.nextId },
            nextId := w.nextId + 1,
            started := w.started ++ [w.nextId] }) := by
  cases hd : w.st.data with
  | none =>
    cases hp : w.st.promise with
    | some pid => left; simp [cacheGet, hd, cacheGetMiss, hp]
    | none => right; exact ⟨rfl, by simp [cacheGet, hd, cacheGetMiss, hp]⟩
  | some v =>
    by_cases hf : now < w.st.expiresAt
    · left; simp [cacheGet, hd, hf]
    · cases hp : w.st.promise with
      | some pid => left; simp [cacheGet, hd, hf, cacheGetMiss, hp]
      | none => right; exact ⟨rfl, by simp [cacheGet, hd, hf, cacheGetMiss, hp]⟩

theorem cacheInv_step {T E : Type} (ttl : Int) (s : CacheTrace T E) (ev : CacheEv T E)
    (hinv : CacheInv s) : CacheInv (cacheStep ttl s ev) := by
  obtain ⟨h1, h2, h3, h4⟩ := hinv
  cases ev with
  | get now =>
    rcases cacheGet_world s.world now with hw | ⟨hpn, hw⟩
    · exact ⟨by simp [cacheStep, hw, h1], by simpa [cacheStep, hw] using h2,
        by simpa [cacheStep, hw] using h3, by simpa [cacheStep, hw] using h4⟩
    · refine ⟨?_, ?_, ?_, ?_⟩
      · simp only [cacheStep, hw, h1]
        exact (List.range_succ s.world.nextId).symm
      · intro k hk
        simp only [cacheStep, hw]
        exact Nat.lt_succ_of_lt (h2 k (by simpa [cacheStep, hw] using hk))
      · intro p hp
        simp only [cacheStep, hw] at hp
        injection hp with hp
        constructor
        · simp [cacheStep, hw, ← hp]
        · intro hmem
          have := h2 p (by simpa [cacheStep, hw] using hmem)
          omega
      · intro i hi
        simp only [cacheStep, hw] at hi ⊢
        rcases Nat.lt_succ_iff_lt_or_eq.mp hi with hlt | heq
        · rcases h4 i hlt with hk | hpi
          · left; exact hk
          · rw [hpn] at hpi; cases hpi
        · right; rw [heq]
  | complete r now =>
    cases hp : s.world.st.promise with
    | none => simpa [cacheStep, hp] using ⟨h1, h2, h3, h4⟩
    | some pid =>
      have hpid : pid + 1 = s.world.nextId ∧ pid ∉ s.log.map Prod.fst := h3 pid hp
      have hcw : ∀ P : CacheWorld T → Prop,
          P { s.world with st := { data := (cacheComplete (E := E) s.world r now ttl).st.data,
                                   expiresAt := (cacheComplete (E := E) s.world r now ttl).st.expiresAt,
                                   promise := none } } →
          P (cacheComplete (E := E) s.world r now ttl) := by
        intro P hP
        cases r with
        | ok v => simpa [cacheComplete, hp] using hP
        | error e => simpa [cacheComplete, hp] using hP
      have hnext : (cacheComplete (E := E) s.world r now ttl).nextId = s.world.nextId := by
        cases r with
        | ok v => simp [cacheComplete, hp]
        | error e => simp [cacheComplete, hp]
      have hstarted : (cacheComplete (E := E) s.world r now ttl).started = s.world.started := by
        cases r with
        | ok v => simp [cacheComplete, hp]
        | error e => simp [cacheComplete, hp]
      have hprom : (cacheComplete (E := E) s.world r now ttl).st.promise = none := by
        cases r with
        | ok v => simp [cacheComplete, hp]
        | error e => simp [cacheComplete, hp]
      refine ⟨?_, ?_, ?_, ?_⟩
      · simp only [cacheStep, hp, hstarted, hnext]
        exact h1
      · intro k hk
        simp only [cacheStep, hp] at hk
        simp only [cacheStep, hp, hnext]
        simp only [List.map_append, List.mem_append] at hk
        rcases hk with hk | hk
        · exact h2 k hk
        · simp at hk
          omega
      · intro p hpr
        simp only [cacheStep, hp, hprom] at hpr
        cases hpr
      · intro i hi
        simp only [cacheStep, hp, hnext] at hi ⊢
        rcases h4 i hi with hk | hpi
        · left; simp only [List.map_append, List.mem_append]; left; exact hk
        · rw [hp] at hpi
          injection hpi with hpi
          left
          simp [hpi]

theorem runCache_inv {T E : Type} (ttl : Int) (evs : List (CacheEv T E)) :
    CacheInv (runCache ttl evs) := by
  have hgen : ∀ (l : List (CacheEv T E)) (s : CacheTrace T E), CacheInv s →
      CacheInv (l.foldl (cacheStep ttl) s) := by
    intro l
    induction l with
    | nil => intro s hs; exact hs
    | cons ev rest ih => intro s hs; exact ih _ (cacheInv_step ttl s ev hs)
  exact hgen evs _ cacheInv_init

theorem length_le_one_of_all_eq {l : List Nat} (hnd : l.Nodup) (a : Nat)
    (h : ∀ x ∈ l, x = a) : l.length ≤ 1 := by
  match l with
  | [] => simp
  | [x] => simp
  | x :: y :: rest =>
    exfalso
    have hx := h x (by simp)
    have hy := h y (by simp)
    have : x ∉ y :: rest := (List.nodup_cons.mp hnd).1
    exact this (by simp [hx, hy])

theorem inFlight_le_one {T E : Type} (s : CacheTrace T E) (hinv : CacheInv s) :
    (inFlightIds s).length ≤ 1 := by
  obtain ⟨h1, h2, h3, h4⟩ := hinv
  have hnd : s.world.started.Nodup := by rw [h1]; exact List.nodup_range _
  have hndf : (inFlightIds s).Nodup := List.Nodup.filter _ hnd
  have hmemkeys : ∀ x, (s.log.any (fun e => e.1 == x)) = true ↔ x ∈ s.log.map Prod.fst := by
    intro x
    simp [List.any_eq_true, beq_iff_eq, List.mem_map]
  cases hp : s.world.st.promise with
  | some p =>
    apply length_le_one_of_all_eq hndf p
    intro x hx
    rw [inFlightIds, List.mem_filter] at hx
    obtain ⟨hxs, hxf⟩ := hx
    have hxn : x < s.world.nextId := by rw [h1] at hxs; simpa using hxs
    rcases h4 x hxn with hk | hpx
    · exfalso
      rw [Bool.not_eq_eq_eq_not, Bool.not_true] at hxf
      rw [← hmemkeys x] at hk
      rw [hk] at hxf
      cases hxf
    · rw [hp] at hpx
      injection hpx with hpx
      exact hpx.symm
  | none =>
    have hempty : inFlightIds s = [] := by
      rw [inFlightIds, List.filter_eq_nil_iff]
      intro x hxs
      have hxn : x < s.world.nextId := by rw [h1] at hxs; simpa using hxs
      rcases h4 x hxn with hk | hpx
      · rw [← hmemkeys x] at hk
        simp [hk]
      · rw [hp] at hpx; cases hpx
    simp [hempty]

/-- C1: for the status cache and the capabilities cache, at any time at
most one build is in flight, and every `get()` on a cold cache while a
build is in flight returns that same in-flight promise: N concurrent
`get()` calls on a cold cache start exactly one build (build `0`), all N
callers await it, and all receive its one settled result (the same value
or the same error). -/
theorem coalescing_single_flight (T E : Type) (ttl : Int) :
    (∀ evs : List (CacheEv T E), (inFlightIds (runCache ttl evs)).length ≤ 1) ∧
    (∀ (ts : List Int) (r : Except E T) (tc : Int), ts ≠ [] →
      (runCache ttl (ts.map CacheEv.get ++ [CacheEv.complete r tc])).world.started = [0] ∧
      (runCache ttl (ts.map CacheEv.get ++ [CacheEv.complete r tc])).outcomes.length = ts.length ∧
      (∀ o ∈ (runCache ttl (ts.map CacheEv.get ++ [CacheEv.complete r tc])).outcomes,
        o = GetRes.awaits 0) ∧
      (∀ o ∈ (runCache ttl (ts.map CacheEv.get ++ [CacheEv.complete r tc])).outcomes,
        resolveOutcome (runCache ttl (ts.map CacheEv.get ++ [CacheEv.complete r tc])).log o =
          some r)) := by
  constructor
  · intro evs
    exact inFlight_le_one _ (runCache_inv ttl evs)
  · intro ts r tc hne
    cases ts with
    | nil => cases hne rfl
    | cons t rest =>
      have h1 : cacheStep (T := T) (E := E) ttl cacheTraceInit (CacheEv.get t) =
          ⟨⟨⟨none, 0, some 0⟩, 1, [0]⟩, [GetRes.awaits 0], []⟩ := by
        simp [cacheStep, cacheTraceInit, cacheWorldInit, cacheInit, cacheGet, cacheGetMiss]
      have key : runCache (T := T) (E := E) ttl
          ((t :: rest).map CacheEv.get ++ [CacheEv.complete r tc]) =
          ⟨cacheComplete ⟨⟨none, 0, some 0⟩, 1, [0]⟩ r tc ttl,
           GetRes.awaits 0 :: rest.map (fun _ => GetRes.awaits 0), [(0, r)]⟩ := by
        rw [runCache, List.foldl_append]
        simp only [List.map_cons, List.foldl_cons]
        rw [h1]
        rw [runGets_join ttl rest 0 ⟨⟨⟨none, 0, some 0⟩, 1, [0]⟩, [GetRes.awaits 0], []⟩ rfl
          (fun u _ => Or.inl rfl)]
        simp [cacheStep]
      rw [key]
      have hstarted : (cacheComplete (⟨⟨none, 0, some 0⟩, 1, [0]⟩ : CacheWorld T) r tc ttl).started
          = [0] := by
        cases r with
        | ok v => simp [cacheComplete]
        | error err => simp [cacheComplete]
      refine ⟨hstarted, by simp, ?_, ?_⟩
      · intro o ho
        rcases List.mem_cons.mp ho with h | h
        · exact h
        · obtain ⟨a, _, hh⟩ := List.mem_map.mp h
          exact hh.symm
      · intro o ho
        have hoeq : o = GetRes.awaits 0 := by
          rcases List.mem_cons.mp ho with h | h
          · exact h
          · obtain ⟨a, _, hh⟩ := List.mem_map.mp h
            exact hh.symm
        rw [hoeq]
        simp [resolveOutcome]

theorem coalescing_single_flight_witness :
    (inFlightIds (runCache (T := Nat) (E := String) 7000
        [CacheEv.get 0, CacheEv.get 0, CacheEv.get 1])).length ≤ 1 ∧
    ((runCache (T := Nat) (E := String) 7000
        ([0, 0, 1].map CacheEv.get ++ [CacheEv.complete (Except.ok 42) 2])).world.started = [0] ∧
     (runCache (T := Nat) (E := String) 7000
        ([0, 0, 1].map CacheEv.get ++ [CacheEv.complete (Except.ok 42) 2])).outcomes.length = 3 ∧
     (∀ o ∈ (runCache (T := Nat) (E := String) 7000
        ([0, 0, 1].map CacheEv.get ++ [CacheEv.complete (Except.ok 42) 2])).outcomes,
        o = GetRes.awaits 0) ∧
     (∀ o ∈ (runCache (T := Nat) (E := String) 7000
        ([0, 0, 1].map CacheEv.get ++ [CacheEv.complete (Except.ok 42) 2])).outcomes,
        resolveOutcome (runCache (T := Nat) (E := String) 7000
          ([0, 0, 1].map CacheEv.get ++ [CacheEv.complete (Except.ok 42) 2])).log o =
            some (Except.ok 42))) :=
  ⟨(coalescing_single_flight Nat String 7000).1 _,
   (coalescing_single_flight Nat String 7000).2 [0, 0, 1] (Except.ok 42) 2 (by decide)⟩

/-- C2: after a successful build completing at time `t` with TTL `ttl`, a
`get()` at `now < t + ttl` returns the cached value without touching the
build bookkeeping, and a `get()` at `now ≥ t + ttl` starts a new build. -/
theorem ttl_respected (T E : Type) (w : CacheWorld T) (pid : Nat) (v : T) (t ttl now : Int)
    (hp : w.st.promise = some pid) :
    (now < t + ttl →
      cacheGet (cacheComplete (E := E) w (Except.ok v) t ttl) now =
        (GetRes.cached v, cacheComplete (E := E) w (Except.ok v) t ttl)) ∧
    (t + ttl ≤ now →
      (cacheGet (cacheComplete (E := E) w (Except.ok v) t ttl) now).1 =
          GetRes.awaits (cacheComplete (E := E) w (Except.ok v) t ttl).nextId ∧
        (cacheGet (cacheComplete (E := E) w (Except.ok v) t ttl) now).2.started =
          (cacheComplete (E := E) w (Except.ok v) t ttl).started ++
            [(cacheComplete (E := E) w (Except.ok v) t ttl).nextId]) := by
  have hw : cacheComplete (E := E) w (Except.ok v) t ttl =
      { w with st := { data := some v, expiresAt := t + ttl, promise := none } } := by
    simp [cacheComplete, hp]
  rw [hw]
  constructor
  · intro hlt
    exact cacheGet_hit _ v now rfl hlt
  · intro hge
    rw [cacheGet_start _ now rfl (Or.inr hge)]
    exact ⟨rfl, rfl⟩

theorem ttl_respected_witness :
    cacheGet (cacheComplete (E := String)
        (⟨⟨none, 0, some 0⟩, 1, [0]⟩ : CacheWorld Nat) (Except.ok 7) 100 7000) 7099 =
      (GetRes.cached 7,
        cacheComplete (E := String)
          (⟨⟨none, 0, some 0⟩, 1, [0]⟩ : CacheWorld Nat) (Except.ok 7) 100 7000) ∧
    (cacheGet (cacheComplete (E := String)
        (⟨⟨none, 0, some 0⟩, 1, [0]⟩ : CacheWorld Nat) (Except.ok 7) 100 7000) 7100).1 =
      GetRes.awaits 1 :=
  ⟨(ttl_respected Nat String ⟨⟨none, 0, some 0⟩, 1, [0]⟩ 0 7 100 7000 7099 rfl).1 (by decide),
   ((ttl_respected Nat String ⟨⟨none, 0, some 0⟩, 1, [0]⟩ 0 7 100 7000 7100 rfl).2 (by decide)).1⟩

/-- C4: scenario with a successful build (value `v1` at `t1`), then a
rebuild after expiry that fails with `e`.  The rejection reaches every
caller that awaited the failed build (they all resolve to the error, not
to the stale `v1`); after the failure the in-flight marker is clear and
the cached data is untouched (still the expired `v1`); and the next
`get()` starts a fresh build instead of serving a cached value. -/
theorem build_failure_propagates (T E : Type) (ttl : Int) (v1 : T) (e : E)
    (t0 t1 t3 t4 : Int) (ts2 : List Int)
    (h2 : ts2 ≠ []) (hts2 : ∀ u ∈ ts2, t1 + ttl ≤ u) (h4 : t1 + ttl ≤ t4) :
    (runCache ttl ([CacheEv.get t0, CacheEv.complete (Except.ok v1) t1] ++
        ts2.map CacheEv.get ++ [CacheEv.complete (Except.error e) t3])).world.st.promise =
      none ∧
    (runCache ttl ([CacheEv.get t0, CacheEv.complete (Except.ok v1) t1] ++
        ts2.map CacheEv.get ++ [CacheEv.complete (Except.error e) t3])).world.st.data =
      some v1 ∧
    (runCache ttl ([CacheEv.get t0, CacheEv.complete (Except.ok v1) t1] ++
        ts2.map CacheEv.get ++ [CacheEv.complete (Except.error e) t3])).world.st.expiresAt =
      t1 + ttl ∧
    resolveOutcome (runCache ttl ([CacheEv.get t0, CacheEv.complete (Except.ok v1) t1] ++
        ts2.map CacheEv.get ++ [CacheEv.complete (Except.error e) t3, CacheEv.get t4])).log
      (GetRes.awaits 1) = some (Except.error e) ∧
    (runCache ttl ([CacheEv.get t0, CacheEv.complete (Except.ok v1) t1] ++
        ts2.map CacheEv.get ++ [CacheEv.complete (Except.error e) t3, CacheEv.get t4])).outcomes =
      GetRes.awaits 0 :: (ts2.map (fun _ => GetRes.awaits 1) ++ [GetRes.awaits 2]) ∧
    (runCache ttl ([CacheEv.get t0, CacheEv.complete (Except.ok v1) t1] ++
        ts2.map CacheEv.get ++ [CacheEv.complete (Except.error e) t3, CacheEv.get t4])).world.started =
      [0, 1, 2] := by
  obtain ⟨u, us, rfl⟩ := List.exists_cons_of_ne_nil h2
  have hA : List.foldl (cacheStep ttl) cacheTraceInit
      [CacheEv.get t0, CacheEv.complete (Except.ok v1) t1] =
      (⟨⟨⟨some v1, t1 + ttl, none⟩, 1, [0]⟩, [GetRes.awaits 0], [(0, Except.ok v1)]⟩ :
        CacheTrace T E) := by
    simp [cacheStep, cacheTraceInit, cacheWorldInit, cacheInit, cacheGet, cacheGetMiss,
      cacheComplete]
  have hu : ¬ u < t1 + ttl := not_lt.mpr (hts2 u (by simp))
  have hB : cacheStep ttl
      (⟨⟨⟨some v1, t1 + ttl, none⟩, 1, [0]⟩, [GetRes.awaits 0], [(0, Except.ok v1)]⟩ :
        CacheTrace T E) (CacheEv.get u) =
      ⟨⟨⟨some v1, t1 + ttl, some 1⟩, 2, [0, 1]⟩, [GetRes.awaits 0, GetRes.awaits 1],
        [(0, Except.ok v1)]⟩ := by
    simp [cacheStep, cacheGet, cacheGetMiss, hu]
  have hC := runGets_join (E := E) ttl us 1
    ⟨⟨⟨some v1, t1 + ttl, some 1⟩, 2, [0, 1]⟩, [GetRes.awaits 0, GetRes.awaits 1],
      [(0, Except.ok v1)]⟩ rfl
    (fun x hx => Or.inr (hts2 x (by simp [hx])))
  have hpre : List.foldl (cacheStep ttl) cacheTraceInit
      ([CacheEv.get t0, CacheEv.complete (Except.ok v1) t1] ++
        (u :: us).map CacheEv.get ++ [CacheEv.complete (Except.error e) t3]) =
      ⟨⟨⟨some v1, t1 + ttl, none⟩, 2, [0, 1]⟩,
        GetRes.awaits 0 :: GetRes.awaits 1 :: us.map (fun _ => GetRes.awaits 1),
        [(0, Except.ok v1), (1, Except.error e)]⟩ := by
    rw [List.foldl_append, List.foldl_append, hA]
    simp only [List.map_cons, List.foldl_cons]
    rw [hB, hC]
    simp [cacheStep, cacheComplete]
  have ht4 : ¬ t4 < t1 + ttl := not_lt.mpr h4
  have hfull : runCache ttl ([CacheEv.get t0, CacheEv.complete (Except.ok v1) t1] ++
      (u :: us).map CacheEv.get ++ [CacheEv.complete (Except.error e) t3, CacheEv.get t4]) =
      ⟨⟨⟨some v1, t1 + ttl, some 2⟩, 3, [0, 1, 2]⟩,
        GetRes.awaits 0 :: GetRes.awaits 1 :: us.map (fun _ => GetRes.awaits 1) ++
          [GetRes.awaits 2],
        [(0, Except.ok v1), (1, Except.error e)]⟩ := by
    have hsplit : [CacheEv.get t0, CacheEv.complete (Except.ok v1) t1] ++
        (u :: us).map (CacheEv.get (T := T) (E := E)) ++
        [CacheEv.complete (Except.error e) t3, CacheEv.get t4] =
        ([CacheEv.get t0, CacheEv.complete (Except.ok v1) t1] ++
          (u :: us).map CacheEv.get ++ [CacheEv.complete (Except.error e) t3]) ++
        [CacheEv.get t4] := by
      simp
    rw [runCache, hsplit, List.foldl_append, hpre]
    simp [cacheStep, cacheGet, cacheGetMiss, ht4]
  have hpre' : runCache ttl ([CacheEv.get t0, CacheEv.complete (Except.ok v1) t1] ++
      (u :: us).map CacheEv.get ++ [CacheEv.complete (Except.error e) t3]) =
      ⟨⟨⟨some v1, t1 + ttl, none⟩, 2, [0, 1]⟩,
        GetRes.awaits 0 :: GetRes.awaits 1 :: us.map (fun _ => GetRes.awaits 1),
        [(0, Except.ok v1), (1, Except.error e)]⟩ := hpre
  rw [hfull, hpre']
  refine ⟨rfl, rfl, rfl, ?_, by simp, rfl⟩
  simp [resolveOutcome]

theorem build_failure_propagates_witness :
    (runCache 7000 ([CacheEv.get 0, CacheEv.complete (Except.ok 5) 1] ++
        [(7001 : Int), 7002].map CacheEv.get ++
        [CacheEv.complete (T := Nat) (Except.error "boom") 7003])).world.st.promise = none ∧
    (runCache 7000 ([CacheEv.get 0, CacheEv.complete (Except.ok 5) 1] ++
        [(7001 : Int), 7002].map CacheEv.get ++
        [CacheEv.complete (T := Nat) (Except.error "boom") 7003])).world.st.data = some 5 ∧
    (runCache 7000 ([CacheEv.get 0, CacheEv.complete (Except.ok 5) 1] ++
        [(7001 : Int), 7002].map CacheEv.get ++
        [CacheEv.complete (T := Nat) (Except.error "boom") 7003])).world.st.expiresAt = 7001 ∧
    resolveOutcome (runCache 7000 ([CacheEv.get 0, CacheEv.complete (Except.ok 5) 1] ++
        [(7001 : Int), 7002].map CacheEv.get ++
        [CacheEv.complete (T := Nat) (Except.error "boom") 7003, CacheEv.get 7004])).log
      (GetRes.awaits 1) = some (Except.error "boom") ∧
    (runCache 7000 ([CacheEv.get 0, CacheEv.complete (Except.ok 5) 1] ++
        [(7001 : Int), 7002].map CacheEv.get ++
        [CacheEv.complete (T := Nat) (Except.error "boom") 7003,
          CacheEv.get 7004])).outcomes =
      GetRes.awaits 0 :: ([(7001 : Int), 7002].map (fun _ => GetRes.awaits 1) ++
        [GetRes.awaits 2]) ∧
    (runCache 7000 ([CacheEv.get 0, CacheEv.complete (Except.ok 5) 1] ++
        [(7001 : Int), 7002].map CacheEv.get ++
        [CacheEv.complete (T := Nat) (Except.error "boom") 7003,
          CacheEv.get 7004])).world.started = [0, 1, 2] :=
  build_failure_propagates Nat String 7000 5 "boom" 0 1 7003 7004 [7001, 7002]
    (by decide) (by decide) (by decide)

/-!
Viewer presence tracking: `viewerHeartbeats` is a `Map` from viewer id to
the `Date.now()` of its last heartbeat.  `recordViewerHeartbeat` sets the
entry and then sweeps; `getViewerCount` sweeps and returns the map size;
`cleanupViewerHeartbeats` deletes every entry strictly older than the
fixed TTL. -/

/-- `VIEWER_HEARTBEAT_TTL_MS = 65 * 1000` from `cam-proxy/server.js`. -/
def VIEWER_HEARTBEAT_TTL_MS : Int := 65 * 1000

/-- The viewer heartbeat registry: insertion-ordered id/timestamp map. -/
abbrev ViewerRegistry := List (String × Int)

/-- `Map.set`: update in place when the id is present, append otherwise. -/
def viewerSet (m : ViewerRegistry) (id : String) (now : Int) : ViewerRegistry :=
  if m.any (fun e => e.1 == id) then
    m.map (fun e => if e.1 == id then (id, now) else e)
  else m ++ [(id, now)]

/-- Model of `cleanupViewerHeartbeats` at time `now`: delete every entry
whose timestamp is strictly below `now - VIEWER_HEARTBEAT_TTL_MS`. -/
def cleanupViewerHeartbeats (now : Int) (m : ViewerRegistry) : ViewerRegistry :=
  m.filter (fun e => !(decide (e.2 < now - VIEWER_HEARTBEAT_TTL_MS)))

/-- Model of `recordViewerHeartbeat`: ignore a falsy id, otherwise set the
entry to `now` and sweep. -/
def recordViewerHeartbeat (id : String) (now : Int) (m : ViewerRegistry) : ViewerRegistry :=
  if id = "" then m else cleanupViewerHeartbeats now (viewerSet m id now)

/-- Model of `getViewerCount`: sweep, then return the map size. -/
def getViewerCount (now : Int) (m : ViewerRegistry) : Nat :=
  (cleanupViewerHeartbeats now m).length

theorem viewer_key_unique {m : ViewerRegistry} (hnd : (m.map Prod.fst).Nodup)
    {a : String} {b c : Int} (hb : (a, b) ∈ m) (hc : (a, c) ∈ m) : b = c := by
  induction m with
  | nil => cases hb
  | cons x xs ih =>
    rw [List.map_cons, List.nodup_cons] at hnd
    rcases List.mem_cons.mp hb with hb1 | hb1 <;> rcases List.mem_cons.mp hc with hc1 | hc1
    · exact congrArg Prod.snd (hb1.trans hc1.symm)
    · exfalso
      have hmem : a ∈ xs.map Prod.fst := List.mem_map.mpr ⟨(a, c), hc1, rfl⟩
      have hxa : x.1 = a := by rw [← hb1]
      exact hnd.1 (hxa ▸ hmem)
    · exfalso
      have hmem : a ∈ xs.map Prod.fst := List.mem_map.mpr ⟨(a, b), hb1, rfl⟩
      have hxa : x.1 = a := by rw [← hc1]
      exact hnd.1 (hxa ▸ hmem)
    · exact ih hnd.2 hb1 hc1

/-- C5: a viewer whose registry entry carries heartbeat time `T` (and no
later heartbeat) is still present after the sweep at `T + TTL - 1` — so
`getViewerCount` counts it — and is swept out at `T + TTL + 1` — so
`getViewerCount` counts only entries of other ids (every read or write
sweeps via `cleanupViewerHeartbeats`). -/
theorem viewer_presence_expiry (m : ViewerRegistry) (v : String) (T : Int)
    (hnd : (m.map Prod.fst).Nodup) (hmem : (v, T) ∈ m) :
    (v, T) ∈ cleanupViewerHeartbeats (T + VIEWER_HEARTBEAT_TTL_MS - 1) m ∧
    1 ≤ getViewerCount (T + VIEWER_HEARTBEAT_TTL_MS - 1) m ∧
    (∀ u : Int, (v, u) ∉ cleanupViewerHeartbeats (T + VIEWER_HEARTBEAT_TTL_MS + 1) m) ∧
    (∀ e ∈ cleanupViewerHeartbeats (T + VIEWER_HEARTBEAT_TTL_MS + 1) m, e.1 ≠ v) := by
  have hkeep : (v, T) ∈ cleanupViewerHeartbeats (T + VIEWER_HEARTBEAT_TTL_MS - 1) m := by
    apply List.mem_filter.mpr
    refine ⟨hmem, ?_⟩
    simp [VIEWER_HEARTBEAT_TTL_MS]
  have hgone : ∀ u : Int, (v, u) ∉ cleanupViewerHeartbeats (T + VIEWER_HEARTBEAT_TTL_MS + 1) m := by
    intro u hu
    obtain ⟨hmu, hk⟩ := List.mem_filter.mp hu
    have huT : u = T := viewer_key_unique hnd hmu hmem
    subst huT
    simp [VIEWER_HEARTBEAT_TTL_MS] at hk
  refine ⟨hkeep, ?_, hgone, ?_⟩
  · exact List.length_pos_of_mem hkeep
  · intro e he hev
    exact hgone e.2 (by rw [← hev]; exact he)

theorem viewer_presence_expiry_witness :
    ((("a" : String), (1000 : Int)) ∈
      cleanupViewerHeartbeats (1000 + VIEWER_HEARTBEAT_TTL_MS - 1) [("a", 1000), ("b", 500)] ∧
     1 ≤ getViewerCount (1000 + VIEWER_HEARTBEAT_TTL_MS - 1) [("a", 1000), ("b", 500)]) ∧
    ((("a" : String), (1000 : Int)) ∉
      cleanupViewerHeartbeats (1000 + VIEWER_HEARTBEAT_TTL_MS + 1) [("a", 1000), ("b", 500)]) :=
  ⟨⟨(viewer_presence_expiry [("a", 1000), ("b", 500)] "a" 1000 (by decide) (by decide)).1,
    (viewer_presence_expiry [("a", 1000), ("b", 500)] "a" 1000 (by decide) (by decide)).2.1⟩,
   (viewer_presence_expiry [("a", 1000), ("b", 500)] "a" 1000 (by decide) (by decide)).2.2.1 1000⟩

theorem viewerSet_keys_eq_of_any (m : ViewerRegistry) (id : String) (now : Int)
    (h : m.any (fun e => e.1 == id) = true) :
    (viewerSet m id now).map Prod.fst = m.map Prod.fst := by
  unfold viewerSet
  rw [if_pos h, List.map_map]
  apply List.map_congr_left
  intro e _
  by_cases he1 : e.1 == id
  · have : e.1 = id := by simpa using he1
    simp [Function.comp, he1, this]
  · simp [Function.comp, he1]

theorem viewerSet_keys_nodup (m : ViewerRegistry) (id : String) (now : Int)
    (hnd : (m.map Prod.fst).Nodup) : ((viewerSet m id now).map Prod.fst).Nodup := by
  by_cases h : m.any (fun e => e.1 == id)
  · rw [viewerSet_keys_eq_of_any m id now h]
    exact hnd
  · unfold viewerSet
    rw [if_neg h, List.map_append]
    refine List.Nodup.append hnd (by simp) ?_
    intro a ha hb
    simp only [List.map_cons, List.map_nil, List.mem_singleton] at hb
    subst hb
    rw [List.any_eq_true] at h
    apply h
    obtain ⟨e, he, hee⟩ := List.mem_map.mp ha
    exact ⟨e, he, by simp [hee]⟩

theorem cleanup_keys_nodup (now : Int) (m : ViewerRegistry)
    (hnd : (m.map Prod.fst).Nodup) :
    ((cleanupViewerHeartbeats now m).map Prod.fst).Nodup := by
  apply List.Nodup.sublist _ hnd
  exact List.Sublist.map Prod.fst (List.filter_sublist m)

theorem record_keys_nodup (id : String) (now : Int) (m : ViewerRegistry)
    (hnd : (m.map Prod.fst).Nodup) :
    ((recordViewerHeartbeat id now m).map Prod.fst).Nodup := by
  unfold recordViewerHeartbeat
  by_cases h : id = ""
  · rw [if_pos h]; exact hnd
  · rw [if_neg h]
    exact cleanup_keys_nodup now _ (viewerSet_keys_nodup m id now hnd)

theorem countP_key_le_one (v : String) :
    ∀ m : ViewerRegistry, (m.map Prod.fst).Nodup →
      m.countP (fun e => e.1 == v) ≤ 1 := by
  intro m
  induction m with
  | nil => intro _; simp
  | cons x xs ih =>
    intro hnd
    rw [List.map_cons, List.nodup_cons] at hnd
    rw [List.countP_cons]
    by_cases hx : x.1 == v
    · have hx1 : x.1 = v := by simpa using hx
      have hzero : xs.countP (fun e => e.1 == v) = 0 := by
        rw [List.countP_eq_zero]
        intro e he hev
        apply hnd.1
        have hev1 : e.1 = v := by simpa using hev
        rw [hx1, ← hev1]
        exact List.mem_map_of_mem Prod.fst he
      simp [hx, hzero]
    · simp only [hx, if_false]
      exact le_trans (by simp) (ih hnd.2)

theorem record_mem_other (id : String) (now : Int) (m : ViewerRegistry)
    (w : String) (u : Int) (hw : w ≠ id)
    (hmem : (w, u) ∈ recordViewerHeartbeat id now m) : (w, u) ∈ m := by
  unfold recordViewerHeartbeat at hmem
  by_cases h : id = ""
  · rwa [if_pos h] at hmem
  · rw [if_neg h] at hmem
    have hset : (w, u) ∈ viewerSet m id now := (List.mem_filter.mp hmem).1
    unfold viewerSet at hset
    by_cases hany : m.any (fun e => e.1 == id)
    · rw [if_pos hany] at hset
      obtain ⟨p, hp, hpe⟩ := List.mem_map.mp hset
      by_cases hp1 : p.1 == id
      · rw [if_pos hp1] at hpe
        exact absurd (congrArg Prod.fst hpe.symm) hw
      · rw [if_neg hp1] at hpe
        rwa [← hpe]
    · rw [if_neg hany] at hset
      rcases List.mem_append.mp hset with hin | hin
      · exact hin
      · simp only [List.mem_singleton] at hin
        exact absurd (congrArg Prod.fst hin) hw

/-- C6: heartbeating the same viewer id any number of times keeps the
registry key-unique, leaves at most one entry for that id — so its
contribution to `getViewerCount` never exceeds 1 — and modifies no other
viewer's entry. -/
theorem heartbeat_idempotent (m : ViewerRegistry) (v : String) (ts : List Int)
    (hnd : (m.map Prod.fst).Nodup) :
    (((ts.foldl (fun acc t => recordViewerHeartbeat v t acc) m).map Prod.fst).Nodup) ∧
    ((ts.foldl (fun acc t => recordViewerHeartbeat v t acc) m).countP
      (fun e => e.1 == v) ≤ 1) ∧
    (∀ now : Int,
      (cleanupViewerHeartbeats now
        (ts.foldl (fun acc t => recordViewerHeartbeat v t acc) m)).countP
        (fun e => e.1 == v) ≤ 1) ∧
    (∀ (w : String) (u : Int), w ≠ v →
      (w, u) ∈ ts.foldl (fun acc t => recordViewerHeartbeat v t acc) m → (w, u) ∈ m) := by
  have hndf : ∀ (l : List Int) (acc : ViewerRegistry), (acc.map Prod.fst).Nodup →
      ((l.foldl (fun acc t => recordViewerHeartbeat v t acc) acc).map Prod.fst).Nodup := by
    intro l
    induction l with
    | nil => intro acc h; exact h
    | cons t rest ih =>
      intro acc h
      exact ih _ (record_keys_nodup v t acc h)
  have hother : ∀ (l : List Int) (acc : ViewerRegistry) (w : String) (u : Int), w ≠ v →
      (w, u) ∈ l.foldl (fun acc t => recordViewerHeartbeat v t acc) acc → (w, u) ∈ acc := by
    intro l
    induction l with
    | nil => intro acc w u _ h; exact h
    | cons t rest ih =>
      intro acc w u hw h
      exact record_mem_other v t acc w u hw (ih _ w u hw h)
  have hfoldnd := hndf ts m hnd
  refine ⟨hfoldnd, countP_key_le_one v _ hfoldnd, ?_, fun w u hw h => hother ts m w u hw h⟩
  intro now
  exact le_trans
    (List.Sublist.countP_le _ (List.filter_sublist _))
    (countP_key_le_one v _ hfoldnd)

theorem heartbeat_idempotent_witness :
    ((([(20 : Int), 30].foldl (fun acc t => recordViewerHeartbeat "b" t acc)
        [("a", 10)]).map Prod.fst).Nodup) ∧
    (([(20 : Int), 30].foldl (fun acc t => recordViewerHeartbeat "b" t acc)
        [("a", 10)]).countP (fun e => e.1 == "b") ≤ 1) ∧
    ((cleanupViewerHeartbeats 100
        ([(20 : Int), 30].foldl (fun acc t => recordViewerHeartbeat "b" t acc)
          [("a", 10)])).countP (fun e => e.1 == "b") ≤ 1) ∧
    ((("a" : String), (10 : Int)) ∈
        [(20 : Int), 30].foldl (fun acc t => recordViewerHeartbeat "b" t acc) [("a", 10)] →
      (("a" : String), (10 : Int)) ∈ ([("a", 10)] : ViewerRegistry)) :=
  ⟨(heartbeat_idempotent [("a", 10)] "b" [20, 30] (by decide)).1,
   (heartbeat_idempotent [("a", 10)] "b" [20, 30] (by decide)).2.1,
   (heartbeat_idempotent [("a", 10)] "b" [20, 30] (by decide)).2.2.1 100,
   (heartbeat_idempotent [("a", 10)] "b" [20, 30] (by decide)).2.2.2 "a" 10 (by decide)⟩

/-!
The push channel `GET /api/telemetry/stream`.  The handler writes the SSE
headers, heartbeats the supplied viewer id, sends a `connected` event,
starts `sendStatus` (which awaits the status cache and then sends `status`
on success or `status-error` on failure, without ending the response), and
synchronously runs `sendViewerCount` (which re-heartbeats the id and sends
a `viewers` event with the current count); only then are the two repeating
timers installed.  Because `sendStatus` suspends at its `await`, the wire
order of the initial events is `connected`, `viewers`, then the status
event; all three are produced by the open sequence, before any timer
tick.  A timer tick re-runs `sendStatus` or `sendViewerCount`; the only
teardown is the `close` handler. -/

/-- A named server-sent event as written by `sendSse`. -/
inductive SseEvent where
  | connected
  | status (p : StatusSnapshot)
  | statusError (msg : String)
  | viewers (count : Nat)

/-- `recordViewerHeartbeat` guarded by `if (viewerId)`. -/
def heartbeatIfViewer (viewerId : Option String) (now : Int) (reg : ViewerRegistry) :
    ViewerRegistry :=
  match viewerId with
  | some id => if id = "" then reg else recordViewerHeartbeat id now reg
  | none => reg

/-- One run of `sendStatus`: the settled result of
`getCachedStatusPayload()` becomes a `status` event, a rejection becomes a
`status-error` event sent to this connection only. -/
def sendStatusEvent (r : Except String StatusSnapshot) : SseEvent :=
  match r with
  | .ok p => .status p
  | .error e => .statusError e

/-- One run of `sendViewerCount`: re-heartbeat this connection's viewer id,
then send the swept live count. -/
def sendViewerCountStep (viewerId : Option String) (now : Int) (reg : ViewerRegistry) :
    ViewerRegistry × SseEvent :=
  let reg1 := heartbeatIfViewer viewerId now reg
  (reg1, .viewers (getViewerCount now reg1))

/-- The open sequence of one `/api/telemetry/stream` connection: heartbeat
on open, send `connected`, run `sendStatus` with the settled cache result
`statusRes`, and run `sendViewerCount`; returns the updated registry and
the events written to this connection. -/
def openTelemetryStream (viewerId : Option String) (statusRes : Except String StatusSnapshot)
    (now : Int) (reg : ViewerRegistry) : ViewerRegistry × List SseEvent :=
  let reg1 := heartbeatIfViewer viewerId now reg
  let vc := sendViewerCountStep viewerId now reg1
  (vc.1, [SseEvent.connected, vc.2, sendStatusEvent statusRes])

/-- A timer tick on an open connection: a status push (with the settled
cache result) or a presence push at some time. -/
inductive ConnTick where
  | statusPush (r : Except String StatusSnapshot)
  | viewersPing (now : Int)

/-- Process one tick: every tick appends exactly one event and never
closes the connection. -/
def connTickStep (viewerId : Option String) (st : ViewerRegistry × List SseEvent)
    (tick : ConnTick) : ViewerRegistry × List SseEvent :=
  match tick with
  | .statusPush r => (st.1, st.2 ++ [sendStatusEvent r])
  | .viewersPing now =>
    let vc := sendViewerCountStep viewerId now st.1
    (vc.1, st.2 ++ [vc.2])

/-- The whole lifetime of one connection: the open sequence followed by
any number of timer ticks. -/
def connectionStream (viewerId : Option String) (statusRes : Except String StatusSnapshot)
    (now : Int) (reg : ViewerRegistry) (ticks : List ConnTick) :
    ViewerRegistry × List SseEvent :=
  ticks.foldl (connTickStep viewerId) (openTelemetryStream viewerId statusRes now reg)

theorem connTick_appends (viewerId : Option String) (ticks : List ConnTick) :
    ∀ (reg : ViewerRegistry) (evs : List SseEvent),
      (ticks.foldl (connTickStep viewerId) (reg, evs)).2 =
        evs ++ (ticks.foldl (connTickStep viewerId) (reg, [])).2 := by
  induction ticks with
  | nil => intro reg evs; simp
  | cons t rest ih =>
    intro reg evs
    cases t with
    | statusPush r =>
      simp only [List.foldl_cons, connTickStep]
      rw [ih _ (evs ++ [sendStatusEvent r]), ih _ ([] ++ [sendStatusEvent r])]
      simp
    | viewersPing tn =>
      simp only [List.foldl_cons, connTickStep]
      rw [ih _ (evs ++ [(sendViewerCountStep viewerId tn reg).2]),
        ih _ ([] ++ [(sendViewerCountStep viewerId tn reg).2])]
      simp

theorem record_lookup_self (id : String) (now : Int) (m : ViewerRegistry) (hid : id ≠ "") :
    ((recordViewerHeartbeat id now m).find? (fun e => e.1 == id)).map (fun e => e.2) =
      some now := by
  unfold recordViewerHeartbeat
  rw [if_neg hid]
  have hall : ∀ e ∈ viewerSet m id now, e.1 = id → e.2 = now := by
    intro e he he1
    unfold viewerSet at he
    by_cases hany : m.any (fun x => x.1 == id)
    · rw [if_pos hany] at he
      obtain ⟨p, _, hpe⟩ := List.mem_map.mp he
      by_cases hp1 : p.1 == id
      · rw [if_pos hp1] at hpe
        rw [← hpe]
      · rw [if_neg hp1] at hpe
        rw [← hpe] at he1
        exact absurd (by simp [he1]) hp1
    · rw [if_neg hany] at he
      rcases List.mem_append.mp he with hin | hin
      · exfalso
        rw [List.any_eq_true] at hany
        exact hany ⟨e, hin, by simp [he1]⟩
      · simp only [List.mem_singleton] at hin
        rw [hin]
  have hex : (id, now) ∈ cleanupViewerHeartbeats now (viewerSet m id now) := by
    apply List.mem_filter.mpr
    constructor
    · unfold viewerSet
      by_cases hany : m.any (fun x => x.1 == id)
      · rw [if_pos hany]
        rw [List.any_eq_true] at hany
        obtain ⟨p, hp, hp1⟩ := hany
        apply List.mem_map.mpr
        exact ⟨p, hp, by rw [if_pos hp1]⟩
      · rw [if_neg hany]
        simp
    · simp [VIEWER_HEARTBEAT_TTL_MS]
  have hsome : (cleanupViewerHeartbeats now (viewerSet m id now)).find?
      (fun e => e.1 == id) |>.isSome := by
    rw [List.find?_isSome]
    exact ⟨(id, now), hex, by simp⟩
  obtain ⟨y, hy⟩ := Option.isSome_iff_exists.mp hsome
  have hykey : y.1 = id := by simpa using List.find?_some hy
  have hymem : y ∈ viewerSet m id now := (List.mem_filter.mp (List.mem_of_find?_eq_some hy)).1
  rw [hy]
  simp [hall y hymem hykey]

/-- C8: on a new `/api/telemetry/stream` connection, a supplied viewer id
is heartbeated on open, and the open sequence itself — before any timer
tick — sends exactly one `connected` event, one `viewers` event carrying
the current count, and one status event (`status` on success,
`status-error` on failure, delivered to this connection without closing
it: ticks still append events afterwards). -/
theorem telemetry_stream_open_events (viewerId : Option String)
    (sres : Except String StatusSnapshot) (now : Int) (reg : ViewerRegistry)
    (ticks : List ConnTick) :
    (openTelemetryStream viewerId sres now reg).2 =
      [SseEvent.connected,
       SseEvent.viewers (getViewerCount now (openTelemetryStream viewerId sres now reg).1),
       sendStatusEvent sres] ∧
    (connectionStream viewerId sres now reg ticks).2 =
      (openTelemetryStream viewerId sres now reg).2 ++
        (ticks.foldl (connTickStep viewerId)
          ((openTelemetryStream viewerId sres now reg).1, [])).2 ∧
    (∀ e, sres = Except.error e → sendStatusEvent sres = SseEvent.statusError e) ∧
    (∀ p, sres = Except.ok p → sendStatusEvent sres = SseEvent.status p) ∧
    (∀ id, viewerId = some id → id ≠ "" →
      (((openTelemetryStream viewerId sres now reg).1.find? (fun e => e.1 == id)).map
        (fun e => e.2)) = some now) := by
  refine ⟨rfl, ?_, ?_, ?_, ?_⟩
  · exact connTick_appends viewerId ticks (openTelemetryStream viewerId sres now reg).1
      (openTelemetryStream viewerId sres now reg).2
  · intro e he; rw [he]; rfl
  · intro p hp; rw [hp]; rfl
  · intro id hid hne
    subst hid
    show (((heartbeatIfViewer (some id) now
        (heartbeatIfViewer (some id) now reg)).find? (fun e => e.1 == id)).map
          (fun e => e.2)) = some now
    simp only [heartbeatIfViewer, if_neg hne]
    exact record_lookup_self id now _ hne

theorem telemetry_stream_open_events_witness :
    ((openTelemetryStream (some "a") (Except.error "down") 0 []).2 =
      [SseEvent.connected,
       SseEvent.viewers (getViewerCount 0 (openTelemetryStream (some "a")
         (Except.error "down") 0 []).1),
       sendStatusEvent (Except.error "down")] ∧
     (connectionStream (some "a") (Except.error "down") 0 [] [ConnTick.viewersPing 10]).2 =
      (openTelemetryStream (some "a") (Except.error "down") 0 []).2 ++
        ([ConnTick.viewersPing 10].foldl (connTickStep (some "a"))
          ((openTelemetryStream (some "a") (Except.error "down") 0 []).1, [])).2) ∧
    sendStatusEvent (Except.error "down") = SseEvent.statusError "down" ∧
    (((openTelemetryStream (some "a") (Except.error "down") 0 []).1.find?
      (fun e => e.1 == "a")).map (fun e => e.2)) = some 0 :=
  ⟨⟨(telemetry_stream_open_events (some "a") (Except.error "down") 0 []
      [ConnTick.viewersPing 10]).1,
    (telemetry_stream_open_events (some "a") (Except.error "down") 0 []
      [ConnTick.viewersPing 10]).2.1⟩,
   (telemetry_stream_open_events (some "a") (Except.error "down") 0 []
      [ConnTick.viewersPing 10]).2.2.1 "down" rfl,
   (telemetry_stream_open_events (some "a") (Except.error "down") 0 []
      [ConnTick.viewersPing 10]).2.2.2.2 "a" rfl (by decide)⟩

/-- C3: `buildStatusPayload` always resolves — for every combination of
upstream outcomes it is `Except.ok` of the snapshot whose five fields are
the five sub-call results, each depending only on its own sub-call's
upstream outcomes — and in the scenario where the geolocation call fails
while the other four succeed, the snapshot carries the error marker only
in `geolocation.error`: the optics, time, device and temperature fields
are the success-branch data. -/
theorem build_status_never_rejects (env : StatusEnv) (now : Int) :
    (buildStatusPayload env now =
      Except.ok
        { optics := getPtzStatus env.ptzPrimary env.ptzAlt
          geolocation := getGeolocation env.geo
          time := getTime env.time
          device := getDeviceInfo env.devPrimary env.devSys
          temperature := getTemperatureAndIr env.tempMain env.tempIr
          fetchedAt := now }) ∧
    (∀ (msg : String) (st st2 st3 st4 : Nat) (pbody dbody tbody : String) (j : Json),
      env.geo = FetchOutcome.exn msg →
      env.ptzPrimary = FetchOutcome.resp true st pbody →
      env.time = TimeOutcome.resp true st2 (some j) →
      jsonGet j "error" = none →
      env.devPrimary = FetchOutcome.resp true st3 dbody →
      env.tempMain = FetchOutcome.resp true st4 tbody →
      (getGeolocation env.geo).error = some msg ∧
      (getPtzStatus env.ptzPrimary env.ptzAlt).error = none ∧
      (getPtzStatus env.ptzPrimary env.ptzAlt).raw = some (jsTrim pbody) ∧
      (getTime env.time).error = none ∧
      (getDeviceInfo env.devPrimary env.devSys).error = none ∧
      (getTemperatureAndIr env.tempMain env.tempIr).error = none ∧
      (getTemperatureAndIr env.tempMain env.tempIr).heater =
        some (parseTemperaturePayload tbody).heater) := by
  constructor
  · rfl
  · intro msg st st2 st3 st4 pbody dbody tbody j hgeo hptz htime hjerr hdev htemp
    refine ⟨?_, ?_, ?_, ?_, ?_, ?_, ?_⟩
    · rw [hgeo]
      simp [getGeolocation, getGeolocationBody, fetchWithTimeout, catching,
        bind, Except.bind, pure, Except.pure]
    · rw [hptz]
      simp [getPtzStatus, getPtzStatusBody, fetchWithTimeout, catching, ptzPositionResult,
        bind, Except.bind, pure, Except.pure]
    · rw [hptz]
      simp [getPtzStatus, getPtzStatusBody, fetchWithTimeout, catching, ptzPositionResult,
        bind, Except.bind, pure, Except.pure]
    · rw [htime]
      simp [getTime, getTimeBody, catching, hjerr, jsTruthyOpt,
        bind, Except.bind, pure, Except.pure]
    · rw [hdev]
      simp [getDeviceInfo, getDeviceInfoBody, fetchWithTimeout, catching,
        bind, Except.bind, pure, Except.pure]
    · rw [htemp]
      simp [getTemperatureAndIr, getTemperatureAndIrBody, fetchWithTimeout, catching,
        bind, Except.bind, pure, Except.pure]
    · rw [htemp]
      simp [getTemperatureAndIr, getTemperatureAndIrBody, fetchWithTimeout, catching,
        bind, Except.bind, pure, Except.pure]

theorem build_status_never_rejects_witness :
    (getGeolocation (FetchOutcome.exn "timeout")).error = some "timeout" ∧
    (getPtzStatus (FetchOutcome.resp true 200 "pan=1 tilt=2 zoom=3")
      (FetchOutcome.resp true 200 "")).error = none ∧
    (getPtzStatus (FetchOutcome.resp true 200 "pan=1 tilt=2 zoom=3")
      (FetchOutcome.resp true 200 "")).raw = some (jsTrim "pan=1 tilt=2 zoom=3") ∧
    (getTime (TimeOutcome.resp true 200 (some (Json.obj [("data",
      Json.obj [("localDateTime", Json.str "2024-01-01T00:00:00")])])))).error = none ∧
    (getDeviceInfo (FetchOutcome.resp true 200 "Brand.ProdFullName=AXIS")
      (FetchOutcome.resp true 200 "")).error = none ∧
    (getTemperatureAndIr (FetchOutcome.resp true 200 "Sensor.S0.Name=Main")
      (FetchOutcome.resp true 200 "")).error = none ∧
    (getTemperatureAndIr (FetchOutcome.resp true 200 "Sensor.S0.Name=Main")
      (FetchOutcome.resp true 200 "")).heater =
      some (parseTemperaturePayload "Sensor.S0.Name=Main").heater :=
  (build_status_never_rejects
    ⟨FetchOutcome.resp true 200 "pan=1 tilt=2 zoom=3",
     FetchOutcome.resp true 200 "",
     FetchOutcome.exn "timeout",
     TimeOutcome.resp true 200 (some (Json.obj [("data",
       Json.obj [("localDateTime", Json.str "2024-01-01T00:00:00")])])),
     FetchOutcome.resp true 200 "Brand.ProdFullName=AXIS",
     FetchOutcome.resp true 200 "",
     FetchOutcome.resp true 200 "Sensor.S0.Name=Main",
     FetchOutcome.resp true 200 ""⟩ 0).2
    "timeout" 200 200 200 200 "pan=1 tilt=2 zoom=3" "Brand.ProdFullName=AXIS"
    "Sensor.S0.Name=Main"
    (Json.obj [("data", Json.obj [("localDateTime", Json.str "2024-01-01T00:00:00")])])
    rfl rfl rfl rfl rfl rfl

/-- C7 counterexample: on a non-success PTZ limits response the returned
capabilities object carries only the zoom fallbacks and the error — the
four pan/tilt bounds are absent (`none`), not the claimed `±172`
fallbacks. -/
theorem ptz_limits_failure_counterexample :
    (getPtzLimits (FetchOutcome.resp false 404 "")).minPan = none ∧
    (getPtzLimits (FetchOutcome.resp false 404 "")).maxPan = none ∧
    (getPtzLimits (FetchOutcome.resp false 404 "")).minTilt = none ∧
    (getPtzLimits (FetchOutcome.resp false 404 "")).maxTilt = none ∧
    (getPtzLimits (FetchOutcome.resp false 404 "")).minPan ≠ some (-172) ∧
    (getPtzLimits (FetchOutcome.resp false 404 "")).minZoom = some 1 ∧
    (getPtzLimits (FetchOutcome.resp false 404 "")).maxZoom = some 9999 ∧
    (getPtzLimits (FetchOutcome.resp false 404 "")).error = some "HTTP 404" :=
  ⟨rfl, rfl, rfl, rfl, by decide, rfl, rfl, rfl⟩

/-- C7 amended: when the upstream limits query fails (transport error or
non-success status), `getPtzLimits` returns only the zoom fallbacks
(`1`/`9999`) together with the error, the pan/tilt bounds being absent;
the `±172` pan/tilt fallbacks (and the zoom fallbacks) are applied
per-field only on the success path, when a bound is missing or
unparseable. -/
theorem ptz_limits_fallback_corrected (f : FetchOutcome) :
    (∀ msg, f = FetchOutcome.exn msg →
      getPtzLimits f =
        { minZoom := some 1, maxZoom := some 9999, error := some msg }) ∧
    (∀ st body, f = FetchOutcome.resp false st body →
      getPtzLimits f =
        { minZoom := some 1, maxZoom := some 9999,
          error := some ("HTTP " ++ toString st) }) ∧
    (∀ st body, f = FetchOutcome.resp true st body →
      getPtzLimits f =
        { minZoom := some (limitsToNumber (kvLookup (parseKvBody body) "PTZ.Limit.L1.MinZoom") 1)
          maxZoom := some (limitsToNumber (kvLookup (parseKvBody body) "PTZ.Limit.L1.MaxZoom") 9999)
          minPan := some (limitsToNumber (kvLookup (parseKvBody body) "PTZ.Limit.L1.MinPan") (-172))
          maxPan := some (limitsToNumber (kvLookup (parseKvBody body) "PTZ.Limit.L1.MaxPan") 172)
          minTilt := some (limitsToNumber (kvLookup (parseKvBody body) "PTZ.Limit.L1.MinTilt") (-172))
          maxTilt := some (limitsToNumber (kvLookup (parseKvBody body) "PTZ.Limit.L1.MaxTilt") 172)
          error := none }) ∧
    (∀ v : Option String, (jsNumberOpt v).isFinite = false →
      limitsToNumber v 1 = 1 ∧ limitsToNumber v 9999 = 9999 ∧
      limitsToNumber v (-172) = -172 ∧ limitsToNumber v 172 = 172) := by
  refine ⟨?_, ?_, ?_, ?_⟩
  · intro msg h
    rw [h]
    simp [getPtzLimits, getPtzLimitsBody, fetchWithTimeout, catching,
      bind, Except.bind, pure, Except.pure, PTZ_MIN_ZOOM_DEFAULT, PTZ_MAX_ZOOM_DEFAULT]
  · intro st body h
    rw [h]
    simp [getPtzLimits, getPtzLimitsBody, fetchWithTimeout, catching,
      bind, Except.bind, pure, Except.pure, PTZ_MIN_ZOOM_DEFAULT, PTZ_MAX_ZOOM_DEFAULT]
  · intro st body h
    rw [h]
    simp [getPtzLimits, getPtzLimitsBody, fetchWithTimeout, catching,
      bind, Except.bind, pure, Except.pure, PTZ_MIN_ZOOM_DEFAULT, PTZ_MAX_ZOOM_DEFAULT]
  · intro v hv
    have hval : ∀ fb : ℚ, limitsToNumber v fb = fb := by
      intro fb
      unfold limitsToNumber
      cases hn : jsNumberOpt v with
      | fin q => rw [hn] at hv; cases hv
      | nan => rfl
      | inf => rfl
      | negInf => rfl
    exact ⟨hval 1, hval 9999, hval (-172), hval 172⟩

theorem ptz_limits_fallback_corrected_witness :
    (getPtzLimits (FetchOutcome.resp false 404 "") =
      { minZoom := some 1, maxZoom := some 9999, error := some ("HTTP " ++ toString 404) }) ∧
    (getPtzLimits (FetchOutcome.resp true 200 "PTZ.Limit.L1.MinPan=abc") =
      { minZoom := some (limitsToNumber (kvLookup
          (parseKvBody "PTZ.Limit.L1.MinPan=abc") "PTZ.Limit.L1.MinZoom") 1)
        maxZoom := some (limitsToNumber (kvLookup
          (parseKvBody "PTZ.Limit.L1.MinPan=abc") "PTZ.Limit.L1.MaxZoom") 9999)
        minPan := some (limitsToNumber (kvLookup
          (parseKvBody "PTZ.Limit.L1.MinPan=abc") "PTZ.Limit.L1.MinPan") (-172))
        maxPan := some (limitsToNumber (kvLookup
          (parseKvBody "PTZ.Limit.L1.MinPan=abc") "PTZ.Limit.L1.MaxPan") 172)
        minTilt := some (limitsToNumber (kvLookup
          (parseKvBody "PTZ.Limit.L1.MinPan=abc") "PTZ.Limit.L1.MinTilt") (-172))
        maxTilt := some (limitsToNumber (kvLookup
          (parseKvBody "PTZ.Limit.L1.MinPan=abc") "PTZ.Limit.L1.MaxTilt") 172)
        error := none }) ∧
    (limitsToNumber (some "abc") (-172) = -172) :=
  ⟨(ptz_limits_fallback_corrected (FetchOutcome.resp false 404 "")).2.1 404 "" rfl,
   (ptz_limits_fallback_corrected
     (FetchOutcome.resp true 200 "PTZ.Limit.L1.MinPan=abc")).2.2.1 200
     "PTZ.Limit.L1.MinPan=abc" rfl,
   ((ptz_limits_fallback_corrected
     (FetchOutcome.resp true 200 "PTZ.Limit.L1.MinPan=abc")).2.2.2
     (some "abc") (by decide)).2.2.1⟩

/-- C9 counterexample: the PTZ limits parser maps the unparseable bound
text `abc` to the hard-coded `-172` fallback, not to `null` as the claim
states for every listed numeric field. -/
theorem numeric_null_counterexample :
    jsNumberOfString "abc" = JsNum.nan ∧
    (getPtzLimits (FetchOutcome.resp true 200 "PTZ.Limit.L1.MinPan=abc")).minPan =
      some (-172) ∧
    (getPtzLimits (FetchOutcome.resp true 200 "PTZ.Limit.L1.MinPan=abc")).minPan ≠ none := by
  refine ⟨by decide, by decide, by decide⟩

/-- C9 amended: the optics pan/tilt/zoom, geolocation lat/lng/heading and
temperature numeric values are `Number.isFinite`-filtered — `null` when
the source text is missing, unparseable or non-finite, and the exact
finite value otherwise (never `NaN`; the parsers are total functions) —
while the PTZ limit bounds instead fall back to their per-field hard-coded
defaults in those cases. -/
theorem numeric_parsing_defensive (v : Option String) (s : String) (fb : ℚ)
    (body xml : String) :
    (∀ q, finiteOrNull v = some q → jsNumberOpt v = JsNum.fin q) ∧
    ((jsNumberOpt v).isFinite = false → finiteOrNull v = none) ∧
    (∀ q, geoToNumber v = some q → jsNumberOpt v = JsNum.fin q) ∧
    ((jsNumberOpt v).isFinite = false → geoToNumber v = none) ∧
    (∀ q, finiteOrNullStr s = some q → jsNumberOfString s = JsNum.fin q) ∧
    ((jsNumberOfString s).isFinite = false → finiteOrNullStr s = none) ∧
    ((jsNumberOpt v).isFinite = false → limitsToNumber v fb = fb) ∧
    (∀ q, limitsToNumber v fb = q → jsNumberOpt v = JsNum.fin q ∨ q = fb) ∧
    ((ptzPositionResult body).pan = finiteOrNull (ptzProp (parsePtzKv body) "pan")) ∧
    ((ptzPositionResult body).tilt = finiteOrNull (ptzProp (parsePtzKv body) "tilt")) ∧
    ((ptzPositionResult body).magnification =
      finiteOrNull (ptzProp (parsePtzKv body) "zoom")) ∧
    ((getGeolocation (FetchOutcome.resp true 200 xml)).lat =
      geoToNumber (extractTag xml "Lat")) ∧
    ((getGeolocation (FetchOutcome.resp true 200 xml)).lng =
      geoToNumber (extractTag xml "Lng")) ∧
    ((getGeolocation (FetchOutcome.resp true 200 xml)).heading =
      geoToNumber (extractTag xml "Heading")) := by
  refine ⟨?_, ?_, ?_, ?_, ?_, ?_, ?_, ?_, rfl, rfl, rfl, rfl, rfl, rfl⟩
  · intro q h
    unfold finiteOrNull at h
    cases hn : jsNumberOpt v with
    | fin q2 => rw [hn] at h; injection h with h; rw [h]
    | nan => rw [hn] at h; cases h
    | inf => rw [hn] at h; cases h
    | negInf => rw [hn] at h; cases h
  · intro hv
    unfold finiteOrNull
    cases hn : jsNumberOpt v with
    | fin q => rw [hn] at hv; cases hv
    | nan => rfl
    | inf => rfl
    | negInf => rfl
  · intro q h
    cases v with
    | none => cases h
    | some s2 =>
      rw [show geoToNumber (some s2) =
        (match jsNumberOfString s2 with
          | JsNum.fin q => some q
          | _ => (none : Option ℚ)) from rfl] at h
      cases hn : jsNumberOfString s2 with
      | fin q2 =>
        rw [hn] at h; injection h with h; subst h
        simpa [jsNumberOpt] using hn
      | nan => rw [hn] at h; cases h
      | inf => rw [hn] at h; cases h
      | negInf => rw [hn] at h; cases h
  · intro hv
    cases v with
    | none => rfl
    | some s2 =>
      rw [show geoToNumber (some s2) =
        (match jsNumberOfString s2 with
          | JsNum.fin q => some q
          | _ => (none : Option ℚ)) from rfl]
      cases hn : jsNumberOfString s2 with
      | fin q =>
        rw [show jsNumberOpt (some s2) = jsNumberOfString s2 from rfl, hn] at hv
        cases hv
      | nan => rfl
      | inf => rfl
      | negInf => rfl
  · intro q h
    unfold finiteOrNullStr at h
    cases hn : jsNumberOfString s with
    | fin q2 => rw [hn] at h; injection h with h; rw [h]
    | nan => rw [hn] at h; cases h
    | inf => rw [hn] at h; cases h
    | negInf => rw [hn] at h; cases h
  · intro hv
    unfold finiteOrNullStr
    cases hn : jsNumberOfString s with
    | fin q => rw [hn] at hv; cases hv
    | nan => rfl
    | inf => rfl
    | negInf => rfl
  · intro hv
    unfold limitsToNumber
    cases hn : jsNumberOpt v with
    | fin q => rw [hn] at hv; cases hv
    | nan => rfl
    | inf => rfl
    | negInf => rfl
  · intro q h
    rw [show limitsToNumber v fb =
      (match jsNumberOpt v with
        | JsNum.fin q => q
        | _ => fb) from rfl] at h
    cases hn : jsNumberOpt v with
    | fin q2 =>
      rw [hn] at h
      have h2 : q2 = q := h
      left; rw [h2]
    | nan =>
      rw [hn] at h
      have h2 : fb = q := h
      right; rw [← h2]
    | inf =>
      rw [hn] at h
      have h2 : fb = q := h
      right; rw [← h2]
    | negInf =>
      rw [hn] at h
      have h2 : fb = q := h
      right; rw [← h2]

theorem numeric_parsing_defensive_witness :
    finiteOrNull (some "abc") = none ∧
    geoToNumber (none : Option String) = none ∧
    finiteOrNullStr "Infinity" = none ∧
    limitsToNumber (none : Option String) (-172) = -172 :=
  ⟨(numeric_parsing_defensive (some "abc") "Infinity" (-172) "" "").2.1 (by decide),
   (numeric_parsing_defensive (none : Option String) "Infinity" (-172) "" "").2.2.2.1
     (by decide),
   (numeric_parsing_defensive (some "abc") "Infinity" (-172) "" "").2.2.2.2.2.1 (by decide),
   (numeric_parsing_defensive (none : Option String) "Infinity" (-172) "" "").2.2.2.2.2.2.1
     (by decide)⟩

/-- C10: for every input payload the sensors list produced by
`parseTemperaturePayload` is sorted in ascending lexicographic
(code-unit, which `localeCompare` realizes on `S<digits>` ids) order of
sensor id, whatever the order of the `Sensor.S<n>.*` lines. -/
theorem temperature_sensors_sorted (payload : String) :
    List.Sorted sensorIdLe (parseTemperaturePayload payload).sensors := by
  unfold parseTemperaturePayload
  exact List.sorted_insertionSort sensorIdLe _
